import Mathlib

/-!
# APA102 pixel strip: shallow embedding of `apa102module.c`

The C extension keeps one heap buffer `leds` of `num_led * 4` bytes and a
three-entry channel table `rgb`.  The embedding below follows the C functions
statement by statement.

Modelling conventions
* A byte is a `Nat`; every store into `leds` reduces the stored value modulo 256.
* C `int` arguments (`led_num`, `start`, `end`, `rgb`, `signed_pos`) are `Int`;
  `unsigned char` arguments (format code `b`) are `Nat`.  `int` arithmetic is
  exact: for strips of fewer than `2^28` pixels no intermediate value of the
  code leaves the 32-bit range.
* `num_led` is a `Nat`: the strip has a non-negative pixel count.
* Every access to `leds` through a computed pointer is bounds-checked against
  the allocation; an access outside it, and a modulo by zero, are undefined
  behaviour in C and are reported as a `Fault`.
* `rotate` has two embeddings.  The C code allocates its scratch array with
  `PyMem_Calloc(pos, sizeof(byte))`, a block of `pos` bytes, but declares it
  `int *temp`, so `temp[i]` occupies the four bytes from byte `4 * i` on and the
  save loop stores `4 * pos` bytes.  `apa102_rotate_strict` checks every access
  to `temp` against the block of `pos` bytes, as it checks `leds`.
  `apa102_rotate` follows the same statements with `temp` taken as `pos` cells
  that hold one saved value each: it gives the values the loops compute when
  the stores past the block land in memory nothing else uses.
-/

namespace APA102

/-- Undefined behaviour the C code can run into. -/
inductive Fault where
  | divByZero
  | outOfBounds
  deriving DecidableEq, Repr

deriving instance DecidableEq for Except

abbrev BYTES_PER_LED : Nat := 4
abbrev MAX_BRIGHTNESS : Nat := 31
abbrev LED_START : Nat := 0xE0
abbrev LED_BRIGHT_MASK : Nat := 0x1F

/-- The object state `apa102Object`.  `spi_write` records whether a callback is
stored (`false` is the C `NULL`); the three `rgb_*` fields are the entries
`rgb[RED]`, `rgb[GRN]`, `rgb[BLU]` of the channel table. -/
structure apa102Object where
  spi_write : Bool
  leds : List Nat
  rgb_RED : Nat
  rgb_GRN : Nat
  rgb_BLU : Nat
  brightness : Nat
  num_led_array : Nat
  num_led : Nat
  deriving DecidableEq, Repr

/-- Read `*(m + i)`. -/
def rd (m : List Nat) (i : Int) : Except Fault Nat :=
  if 0 ≤ i ∧ i < (m.length : Int) then .ok (m.getD i.toNat 0) else .error .outOfBounds

/-- Store `v` into cell `i` of an array, no conversion. -/
def store (m : List Nat) (i : Int) (v : Nat) : Except Fault (List Nat) :=
  if 0 ≤ i ∧ i < (m.length : Int) then .ok (m.set i.toNat v) else .error .outOfBounds

/-- Write `*(m + i) = v` into a byte array: the value is converted to `byte`. -/
def wr (m : List Nat) (i : Int) (v : Nat) : Except Fault (List Nat) :=
  store m i (v % 256)

/-- A counted loop: `cnt` iterations of `body`, the loop variable starting at `i`
and moving by `step` after each iteration.
`for (i = a; i < b; i++)` is `forLoop body 1 (b - a).toNat a`,
`for (i = a; i > b; i--)` is `forLoop body (-1) (a - b).toNat a`. -/
def forLoop {σ : Type} (body : Int → σ → Except Fault σ) (step : Int) :
    Nat → Int → σ → Except Fault σ
  | 0, _, st => .ok st
  | cnt + 1, i, st => body i st >>= forLoop body step cnt (i + step)

/-- State of the scan of the `order` string in `apa102_init`. -/
structure OrderScan where
  rgb_RED : Nat
  rgb_GRN : Nat
  rgb_BLU : Nat
  r_count : Nat
  g_count : Nat
  b_count : Nat
  deriving DecidableEq, Repr

/-- The loop `for (int i = 0; i < 3; i++)` of `apa102_init` over the C string
`order`; `left` is the number of iterations still to run.  Reading at the
length of the string yields the terminating NUL, which leaves the loop. -/
def scanOrder (order : List Char) : Nat → Nat → OrderScan → OrderScan
  | 0, _, st => st
  | left + 1, i, st =>
    let loopC := order.getD i (Char.ofNat 0)
    if loopC = 'r' ∨ loopC = 'R' then
      scanOrder order left (i + 1) { st with rgb_RED := 3 - i, r_count := st.r_count + 1 }
    else if loopC = 'g' ∨ loopC = 'G' then
      scanOrder order left (i + 1) { st with rgb_GRN := 3 - i, g_count := st.g_count + 1 }
    else if loopC = 'b' ∨ loopC = 'B' then
      scanOrder order left (i + 1) { st with rgb_BLU := 3 - i, b_count := st.b_count + 1 }
    else if loopC = Char.ofNat 0 then st
    else scanOrder order left (i + 1) st

/-- The loop `for (int i = 0; (i+3) < num_led_array; i += 4) leds[i] = LED_START`;
`fuel` bounds the number of iterations (`num_led_array` is always enough). -/
def initMarkers (num_led_array : Nat) : Nat → Nat → List Nat → List Nat
  | 0, _, m => m
  | fuel + 1, i, m =>
    if i + 3 < num_led_array then
      initMarkers num_led_array fuel (i + 4) (m.set i LED_START)
    else m

/-- The constructor `apa102_init(num_led, write_callback, global_brightness, order)`
on its successful path.  `spi_write` tells whether the callback argument is a
callable (`true`) or `None` (any other object makes the C function fail with a
`TypeError` before an object exists); `global_brightness` (a value 0..255) and
`order` (a C string) are optional.  The channel table starts zeroed, as the
allocator returns the object. -/
def apa102_init (num_led : Nat) (spi_write : Bool) (global_brightness : Option Nat)
    (order : Option (List Char)) : apa102Object :=
  let brightness := global_brightness.getD MAX_BRIGHTNESS
  let brightness := if brightness > MAX_BRIGHTNESS then MAX_BRIGHTNESS else brightness
  let scan : OrderScan :=
    match order with
    | none => ⟨0, 0, 0, 0, 0, 0⟩
    | some o => scanOrder o 3 0 ⟨0, 0, 0, 0, 0, 0⟩
  let use_default_rgb : Bool :=
    match order with
    | none => true
    | some _ => !(scan.r_count = 1 ∧ scan.g_count = 1 ∧ scan.b_count = 1)
  let scan : OrderScan :=
    if use_default_rgb then { scan with rgb_RED := 3, rgb_GRN := 2, rgb_BLU := 1 } else scan
  let num_led_array := num_led * BYTES_PER_LED
  let leds := List.replicate num_led_array 0
  { spi_write := spi_write
    leds := initMarkers num_led_array num_led_array 0 leds
    rgb_RED := scan.rgb_RED
    rgb_GRN := scan.rgb_GRN
    rgb_BLU := scan.rgb_BLU
    brightness := brightness
    num_led_array := num_led_array
    num_led := num_led }

/-- The four stores every set operation performs on pixel `i`:
`*start_ptr = bright; start_ptr[rgb[RED]] = r; start_ptr[rgb[GRN]] = g;
start_ptr[rgb[BLU]] = b` with `start_ptr = leds + i * BYTES_PER_LED`. -/
def writePixel (s : apa102Object) (bright r g b : Nat) (i : Int) (m : List Nat) :
    Except Fault (List Nat) := do
  let start_ptr : Int := i * BYTES_PER_LED
  let m ← wr m start_ptr bright
  let m ← wr m (start_ptr + s.rgb_RED) r
  let m ← wr m (start_ptr + s.rgb_GRN) g
  wr m (start_ptr + s.rgb_BLU) b

/-- The clamp `if (led_brightness > MAX_BRIGHTNESS) led_brightness = MAX_BRIGHTNESS`. -/
def clampBrightness (led_brightness : Nat) : Nat :=
  if led_brightness > MAX_BRIGHTNESS then MAX_BRIGHTNESS else led_brightness

/-- The marker byte of `set_pixel` and `set_pixel_rgb`:
`byte bright = (led_brightness * self->brightness) / 31;` followed by
`(bright & LED_BRIGHT_MASK) | LED_START`. -/
def brightByte (s : apa102Object) (led_brightness : Nat) : Nat :=
  ((((led_brightness * s.brightness) / 31) % 256) &&& LED_BRIGHT_MASK) ||| LED_START

/-- The marker byte of the range and whole-strip operations:
`byte bright_byte = (((led_brightness * self->brightness) / 31) & LED_BRIGHT_MASK) | LED_START`. -/
def bright_byte (s : apa102Object) (led_brightness : Nat) : Nat :=
  ((((led_brightness * s.brightness) / 31) &&& LED_BRIGHT_MASK) ||| LED_START) % 256

/-- Method `set_pixel(led_num, red, green, blue, brightness)`. -/
def apa102_set_pixel (s : apa102Object) (led_num : Int) (r g b : Nat)
    (led_brightness : Nat) : Except Fault apa102Object :=
  let led_brightness := clampBrightness led_brightness
  if led_num < (s.num_led : Int) ∧ led_num ≥ 0 then do
    let m ← writePixel s (brightByte s led_brightness) r g b led_num s.leds
    pure { s with leds := m }
  else pure s

/-- Channel extraction `(rgb >> shift) & 255` on a C `int`. -/
def channelOf (rgb : Int) (shift : Nat) : Nat :=
  ((rgb >>> shift) % 256).toNat

/-- Method `set_pixel_rgb(led_num, rgb_color, brightness)`. -/
def apa102_set_pixel_rgb (s : apa102Object) (led_num : Int) (rgb : Int)
    (led_brightness : Nat) : Except Fault apa102Object :=
  let r := channelOf rgb 16
  let g := channelOf rgb 8
  let b := channelOf rgb 0
  let led_brightness := clampBrightness led_brightness
  if led_num < (s.num_led : Int) ∧ led_num ≥ 0 then do
    let m ← writePixel s (brightByte s led_brightness) r g b led_num s.leds
    pure { s with leds := m }
  else pure s

/-- Method `set_range(start, end, red, green, blue, brightness)`. -/
def apa102_set_range (s : apa102Object) (start «end» : Int) (r g b : Nat)
    (led_brightness : Nat) : Except Fault apa102Object :=
  let led_brightness := clampBrightness led_brightness
  if start < 0 ∨ «end» ≥ (s.num_led : Int) ∨ start > «end» then pure s
  else do
    let bright_byte := bright_byte s led_brightness
    let m ← forLoop (writePixel s bright_byte r g b) 1 («end» - start).toNat start s.leds
    pure { s with leds := m }

/-- Method `set_range_rgb(start, end, rgb, brightness)`. -/
def apa102_set_range_rgb (s : apa102Object) (start «end» : Int) (rgb : Int)
    (led_brightness : Nat) : Except Fault apa102Object :=
  let led_brightness := clampBrightness led_brightness
  if start < 0 ∨ «end» ≥ (s.num_led : Int) ∨ start > «end» then pure s
  else do
    let r := channelOf rgb 16
    let g := channelOf rgb 8
    let b := channelOf rgb 0
    let bright_byte := bright_byte s led_brightness
    let m ← forLoop (writePixel s bright_byte r g b) 1 («end» - start).toNat start s.leds
    pure { s with leds := m }

/-- Method `set_all(red, green, blue, brightness)`. -/
def apa102_set_all (s : apa102Object) (r g b : Nat) (led_brightness : Nat) :
    Except Fault apa102Object := do
  let led_brightness := clampBrightness led_brightness
  let bright_byte := bright_byte s led_brightness
  let m ← forLoop (writePixel s bright_byte r g b) 1 s.num_led 0 s.leds
  pure { s with leds := m }

/-- Method `set_all_rgb(rgb, brightness)`. -/
def apa102_set_all_rgb (s : apa102Object) (rgb : Int) (led_brightness : Nat) :
    Except Fault apa102Object := do
  let r := channelOf rgb 16
  let g := channelOf rgb 8
  let b := channelOf rgb 0
  let led_brightness := clampBrightness led_brightness
  let bright_byte := bright_byte s led_brightness
  let m ← forLoop (writePixel s bright_byte r g b) 1 s.num_led 0 s.leds
  pure { s with leds := m }

/-- Body of the loop of `clear_strip`: `if (i % BYTES_PER_LED != 0) leds[i] = 0`. -/
def clearBody (i : Int) (m : List Nat) : Except Fault (List Nat) :=
  if i % (BYTES_PER_LED : Int) ≠ 0 then wr m i 0 else pure m

/-- Method `clear_strip()`. -/
def apa102_clear_strip (s : apa102Object) : Except Fault apa102Object := do
  let m ← forLoop clearBody 1 s.num_led_array 0 s.leds
  pure { s with leds := m }

/-- Method `show()`.  The result is the Python list handed to the write callback
(`none` when no callback is stored and nothing is sent); a slot of the list is
`none` while it still holds the `NULL` that `PyList_New` put there. -/
def apa102_show (s : apa102Object) : Except Fault (Option (List (Option Nat))) :=
  if s.spi_write = false then pure none
  else do
    let end_bytes : Nat := (s.num_led + 15) / 16
    let list : List (Option Nat) := List.replicate (s.num_led_array + 4 + end_bytes) none
    let list ← forLoop (fun i l => pure (l.set i.toNat (some 0))) 1 4 0 list
    let list ← forLoop
      (fun i l => do
        let v ← rd s.leds i
        pure (l.set (i + 4).toNat (some v)))
      1 s.num_led_array 0 list
    let list ← forLoop (fun i l => pure (l.set i.toNat (some 0))) 1 end_bytes
      ((s.num_led_array : Int) + 4) list
    pure (some list)

/-- Method `get_pixel_color(led_num)`: `none` is the Python `None`. -/
def apa102_get_pixel_color (s : apa102Object) (led_num : Int) :
    Except Fault (Option (Nat × Nat × Nat)) :=
  if led_num < 0 ∨ led_num > (s.num_led : Int) then pure none
  else do
    let r ← rd s.leds (led_num * BYTES_PER_LED + s.rgb_RED)
    let g ← rd s.leds (led_num * BYTES_PER_LED + s.rgb_GRN)
    let b ← rd s.leds (led_num * BYTES_PER_LED + s.rgb_BLU)
    pure (some (r, g, b))

/-- Loop body `temp[i] = leds[off + i]` of `rotate`; the loop state is the pair
`(leds, temp)`.  The forward branch saves from `off = 0`, the backward branch
from `off = num_led_array - pos`. -/
def saveBody (off : Int) (i : Int) (st : List Nat × List Nat) :
    Except Fault (List Nat × List Nat) := do
  let v ← rd st.1 (off + i)
  let t ← store st.2 i v
  pure (st.1, t)

/-- Loop body `leds[i] = leds[i + delta]` of `rotate`: `delta = pos` in the forward
branch, `delta = -pos` in the backward branch. -/
def shiftBody (delta : Int) (i : Int) (st : List Nat × List Nat) :
    Except Fault (List Nat × List Nat) := do
  let v ← rd st.1 (i + delta)
  let l ← wr st.1 i v
  pure (l, st.2)

/-- Loop body `leds[off + i] = temp[i]` of `rotate`: `off = num_led_array - pos` in
the forward branch, `off = 0` in the backward branch. -/
def restoreBody (off : Int) (i : Int) (st : List Nat × List Nat) :
    Except Fault (List Nat × List Nat) := do
  let v ← rd st.2 i
  let l ← wr st.1 (off + i) v
  pure (l, st.2)

/-- The branch `if (direction > 0)` of `rotate`, `pos` already in bytes and `n` the
value of `num_led_array`: save the first `pos` bytes, move the rest down, put the
saved bytes at the end.  Here `temp` has one cell per saved value and its block
bounds are not checked; `shiftForwardStrict` checks them. -/
def shiftForward (leds : List Nat) (n pos : Int) : Except Fault (List Nat) := do
  let temp : List Nat := List.replicate pos.toNat 0
  let st ← forLoop (saveBody 0) 1 pos.toNat 0 (leds, temp)
  let st ← forLoop (shiftBody pos) 1 (n - pos).toNat 0 st
  let st ← forLoop (restoreBody (n - pos)) 1 pos.toNat 0 st
  pure st.1

/-- The `else` branch of `rotate`: save the last `pos` bytes, move the rest up with
the loop `for (i = num_led_array-1; i > pos; i--)`, put the saved bytes at the
start.  Here `temp` has one cell per saved value and its block bounds are not
checked; `shiftBackwardStrict` checks them. -/
def shiftBackward (leds : List Nat) (n pos : Int) : Except Fault (List Nat) := do
  let temp : List Nat := List.replicate pos.toNat 0
  let st ← forLoop (saveBody (n - pos)) 1 pos.toNat 0 (leds, temp)
  let st ← forLoop (shiftBody (-pos)) (-1) (n - 1 - pos).toNat (n - 1) st
  let st ← forLoop (restoreBody 0) 1 pos.toNat 0 st
  pure st.1

/-- Method `rotate(positions)`, with the accesses to `leds` bounds-checked and
the scratch array `temp` taken as `pos` cells (see `apa102_rotate_strict` for the
same method with the block of `temp` checked too). -/
def apa102_rotate (s : apa102Object) (signed_pos : Int) : Except Fault apa102Object :=
  if s.num_led = 0 then .error .divByZero
  else
    let signed_pos : Int := Int.tmod signed_pos s.num_led
    if signed_pos = 0 then pure s
    else
      let direction : Int := if signed_pos < 0 then -1 else 1
      let pos : Int := signed_pos.natAbs
      let flip : Bool := pos > (s.num_led : Int) / 2
      let pos : Int := if flip then (s.num_led : Int) - signed_pos else pos
      let direction : Int := if flip then direction * -1 else direction
      let pos : Int := pos * BYTES_PER_LED
      if direction > 0 then do
        let leds ← shiftForward s.leds s.num_led_array pos
        pure { s with leds := leds }
      else do
        let leds ← shiftBackward s.leds s.num_led_array pos
        pure { s with leds := leds }

/-- The digit table `HEX_CHARS`. -/
def HEX_CHARS : List Char :=
  ['0', '1', '2', '3', '4', '5', '6', '7', '8', '9', 'A', 'B', 'C', 'D', 'E', 'F']

/-- The character `NULL_CHAR`, the C string terminator. -/
def NULL_CHAR : Char := Char.ofNat 0

/-- The character `NUMBER_SIGN`. -/
def NUMBER_SIGN : Char := '#'

/-- Entry `rgb[i]` of the channel table, `i` being `RED = 0`, `GRN = 1` or `BLU = 2`. -/
def rgbAt (s : apa102Object) (i : Int) : Nat :=
  if i = 0 then s.rgb_RED else if i = 1 then s.rgb_GRN else s.rgb_BLU

/-- Body of the loop of `get_pixel_color_str`:
`b = leds[led_num + rgb[i]]; str[i*2+2] = HEX_CHARS[b&15]; str[i*2+1] = HEX_CHARS[(b>>4)&15]`,
`led_num` being already multiplied by `BYTES_PER_LED`. -/
def hexBody (s : apa102Object) (led_num : Int) (i : Int) (str : List Char) :
    Except Fault (List Char) := do
  let b ← rd s.leds (led_num + rgbAt s i)
  let str := str.set (i * 2 + 2).toNat (HEX_CHARS.getD (b &&& 15) NULL_CHAR)
  pure (str.set (i * 2 + 1).toNat (HEX_CHARS.getD ((b >>> 4) &&& 15) NULL_CHAR))

/-- Method `get_pixel_color_str(led_num)`: `none` is the Python `None`.  The
array `char str[8]` gets `#` in cell 0 and the terminator in cell 7, the loop
fills cells 1..6, and the returned Python string is the C string in `str`, that
is its characters up to the first terminator. -/
def apa102_get_pixel_color_str (s : apa102Object) (led_num : Int) :
    Except Fault (Option (List Char)) :=
  if led_num < 0 ∨ led_num > (s.num_led : Int) then pure none
  else do
    let led_num : Int := led_num * BYTES_PER_LED
    let str : List Char := ((List.replicate 8 NULL_CHAR).set 0 NUMBER_SIGN).set 7 NULL_CHAR
    let str ← forLoop (hexBody s led_num) 1 (BYTES_PER_LED - 1) 0 str
    pure (some (str.takeWhile (fun c => c ≠ NULL_CHAR)))

/-- Method `get_pixel_color_rgb(led_num)`: `none` is the Python `None`. -/
def apa102_get_pixel_color_rgb (s : apa102Object) (led_num : Int) :
    Except Fault (Option Nat) :=
  if led_num < 0 ∨ led_num > (s.num_led : Int) then pure none
  else do
    let r ← rd s.leds (led_num * BYTES_PER_LED + s.rgb_RED)
    let g ← rd s.leds (led_num * BYTES_PER_LED + s.rgb_GRN)
    let b ← rd s.leds (led_num * BYTES_PER_LED + s.rgb_BLU)
    pure (some ((r <<< 16) ||| (g <<< 8) ||| b))

/-- Method `combine_color(red, green, blue)`; the three arguments are bytes. -/
def apa102_combine_color (r g b : Nat) : Nat :=
  (r <<< 16) ||| (g <<< 8) ||| b

/-- Method `wheel(wheel_pos)`; `pos` is an `unsigned char`, so each assignment
to it is reduced modulo 256. -/
def apa102_wheel (pos : Nat) : Nat :=
  if pos < 85 then
    let pos := (pos * 3) % 256
    (pos <<< 16) ||| ((255 - pos) <<< 8)
  else if pos < 170 then
    let pos := ((pos - 85) * 3) % 256
    ((255 - pos) <<< 16) ||| pos
  else
    let pos := ((pos - 170) * 3) % 256
    (pos <<< 8) ||| (255 - pos)

/-- Channel extraction in the words of the specification: `(v >> shift) & 255`
with the bitwise and of two integers. -/
def decodeSpec (v : Int) (shift : Nat) : Int :=
  Int.land (v >>> shift) 255

/-- An uppercase hexadecimal digit, from its value 0..15: `0`..`9`, then `A`..`F`. -/
def upperHexDigit (d : Nat) : Char :=
  if d < 10 then Char.ofNat (48 + d) else Char.ofNat (55 + d)

/-- A byte as two uppercase hexadecimal digits, high nibble first. -/
def hexByteUpper (v : Nat) : List Char :=
  [upperHexDigit (v / 16), upperHexDigit (v % 16)]

/-- The six-digit, zero-padded, uppercase hexadecimal rendering of a number
below `2^24`, most significant digit first. -/
def hexUpper6 (v : Nat) : List Char :=
  [upperHexDigit (v / 16 ^ 5 % 16), upperHexDigit (v / 16 ^ 4 % 16),
    upperHexDigit (v / 16 ^ 3 % 16), upperHexDigit (v / 16 ^ 2 % 16),
    upperHexDigit (v / 16 % 16), upperHexDigit (v % 16)]

/-- Number of characters of a string that are one of the two given letters (a
letter in lower and in upper case). -/
def countLetter (o : List Char) (lo up : Char) : Nat :=
  o.countP (fun c => c = lo ∨ c = up)

/-- A string contains each of the letters R, G and B exactly once,
case-insensitively, among its characters. -/
def eachOnce (o : List Char) : Prop :=
  countLetter o 'r' 'R' = 1 ∧ countLetter o 'g' 'G' = 1 ∧ countLetter o 'b' 'B' = 1

instance (o : List Char) : Decidable (eachOnce o) := by
  unfold eachOnce; infer_instance

/-- Invariant of the order scan that ties each offset to the position of its
letter: a channel seen at least once has offset `3 - j` for a position `j ≤ 2`
holding that channel's letter. -/
def ScanLetters (o : List Char) (st : OrderScan) : Prop :=
  (1 ≤ st.r_count → st.rgb_RED ≤ 3 ∧
    (o.getD (3 - st.rgb_RED) NULL_CHAR = 'r' ∨ o.getD (3 - st.rgb_RED) NULL_CHAR = 'R')) ∧
  (1 ≤ st.g_count → st.rgb_GRN ≤ 3 ∧
    (o.getD (3 - st.rgb_GRN) NULL_CHAR = 'g' ∨ o.getD (3 - st.rgb_GRN) NULL_CHAR = 'G')) ∧
  (1 ≤ st.b_count → st.rgb_BLU ≤ 3 ∧
    (o.getD (3 - st.rgb_BLU) NULL_CHAR = 'b' ∨ o.getD (3 - st.rgb_BLU) NULL_CHAR = 'B'))

/-- Whether the cell `temp[i]` lies inside the block that
`int *temp = PyMem_Calloc(pos, sizeof(byte))` allocates: the block has `pos`
bytes and the `int` cell `i` occupies the bytes `4 * i .. 4 * i + 3`. -/
def tempInBlock (pos i : Int) : Bool :=
  decide (0 ≤ i ∧ i * 4 + 4 ≤ pos)

/-- Loop body `temp[i] = leds[off + i]` with the store checked against the block
of `temp`. -/
def saveBodyStrict (pos off : Int) (i : Int) (st : List Nat × List Nat) :
    Except Fault (List Nat × List Nat) := do
  let v ← rd st.1 (off + i)
  if tempInBlock pos i then
    let t ← store st.2 i v
    pure (st.1, t)
  else .error .outOfBounds

/-- Loop body `leds[off + i] = temp[i]` with the read checked against the block
of `temp`. -/
def restoreBodyStrict (pos off : Int) (i : Int) (st : List Nat × List Nat) :
    Except Fault (List Nat × List Nat) :=
  if tempInBlock pos i then restoreBody off i st else .error .outOfBounds

/-- The branch `if (direction > 0)` of `rotate` with the block of `temp` checked. -/
def shiftForwardStrict (leds : List Nat) (n pos : Int) : Except Fault (List Nat) := do
  let temp : List Nat := List.replicate pos.toNat 0
  let st ← forLoop (saveBodyStrict pos 0) 1 pos.toNat 0 (leds, temp)
  let st ← forLoop (shiftBody pos) 1 (n - pos).toNat 0 st
  let st ← forLoop (restoreBodyStrict pos (n - pos)) 1 pos.toNat 0 st
  pure st.1

/-- The `else` branch of `rotate` with the block of `temp` checked. -/
def shiftBackwardStrict (leds : List Nat) (n pos : Int) : Except Fault (List Nat) := do
  let temp : List Nat := List.replicate pos.toNat 0
  let st ← forLoop (saveBodyStrict pos (n - pos)) 1 pos.toNat 0 (leds, temp)
  let st ← forLoop (shiftBody (-pos)) (-1) (n - 1 - pos).toNat (n - 1) st
  let st ← forLoop (restoreBodyStrict pos 0) 1 pos.toNat 0 st
  pure st.1

/-- Method `rotate(positions)` with every access checked: those to `leds`
against the pixel buffer and those to `temp` against its block of `pos` bytes. -/
def apa102_rotate_strict (s : apa102Object) (signed_pos : Int) : Except Fault apa102Object :=
  if s.num_led = 0 then .error .divByZero
  else
    let signed_pos : Int := Int.tmod signed_pos s.num_led
    if signed_pos = 0 then pure s
    else
      let direction : Int := if signed_pos < 0 then -1 else 1
      let pos : Int := signed_pos.natAbs
      let flip : Bool := pos > (s.num_led : Int) / 2
      let pos : Int := if flip then (s.num_led : Int) - signed_pos else pos
      let direction : Int := if flip then direction * -1 else direction
      let pos : Int := pos * BYTES_PER_LED
      if direction > 0 then do
        let leds ← shiftForwardStrict s.leds s.num_led_array pos
        pure { s with leds := leds }
      else do
        let leds ← shiftBackwardStrict s.leds s.num_led_array pos
        pure { s with leds := leds }

/-- A two-pixel strip with channel order `GRB` and global brightness 20, after
`set_pixel(0, 1, 2, 3, 31)` and `set_pixel(1, 0xAB, 0x0C, 0xF9, 7)`: both pixels
carry colours and the two marker bytes differ. -/
def sampleStrip : apa102Object :=
  { spi_write := true
    leds := [0xF4, 3, 1, 2, 0xE4, 0xF9, 0xAB, 0x0C]
    rgb_RED := 2
    rgb_GRN := 3
    rgb_BLU := 1
    brightness := 20
    num_led_array := 8
    num_led := 2 }

/-- A four-pixel strip with the default channel order and global brightness 31,
after `set_pixel(i, 10*i + 1, 10*i + 2, 10*i + 3, 31)` for `i` = 0..3: four
different colours. -/
def sampleStrip4 : apa102Object :=
  { spi_write := true
    leds := [0xFF, 3, 2, 1, 0xFF, 13, 12, 11, 0xFF, 23, 22, 21, 0xFF, 33, 32, 31]
    rgb_RED := 3
    rgb_GRN := 2
    rgb_BLU := 1
    brightness := 31
    num_led_array := 16
    num_led := 4 }

/-- The shift `rotate` decides on, from the statements between the reduction
`signed_pos %= num_led` and the scaling `pos *= BYTES_PER_LED`: the pair of `pos`,
the number of pixels that are saved to `temp` and by which the rest is shifted,
and `direction`.  The pixel count `num_led` is not 0. -/
def rotatePlan (num_led : Nat) (positions : Int) : Int × Int :=
  let signed_pos : Int := Int.tmod positions num_led
  let direction : Int := if signed_pos < 0 then -1 else 1
  let pos : Int := signed_pos.natAbs
  let flip : Bool := pos > (num_led : Int) / 2
  let pos : Int := if flip then (num_led : Int) - signed_pos else pos
  let direction : Int := if flip then direction * -1 else direction
  (pos, direction)

/-- The channel table is a permutation of the byte offsets 1, 2, 3. -/
def ChannelsOK (s : apa102Object) : Prop :=
  (1 ≤ s.rgb_RED ∧ s.rgb_RED ≤ 3) ∧ (1 ≤ s.rgb_GRN ∧ s.rgb_GRN ≤ 3) ∧
  (1 ≤ s.rgb_BLU ∧ s.rgb_BLU ≤ 3) ∧
  s.rgb_RED ≠ s.rgb_GRN ∧ s.rgb_GRN ≠ s.rgb_BLU ∧ s.rgb_RED ≠ s.rgb_BLU

/-- Well-formed object states: the buffer has `num_led * 4` byte cells, the
channel table is a permutation of the offsets 1, 2, 3 and the global
brightness is at most `MAX_BRIGHTNESS`.  The buffer content is otherwise
arbitrary. -/
def WF (s : apa102Object) : Prop :=
  s.num_led_array = s.num_led * 4 ∧ s.leds.length = s.num_led_array ∧
  ChannelsOK s ∧ s.brightness ≤ 31 ∧ ∀ x ∈ s.leds, x < 256

instance (s : apa102Object) : Decidable (ChannelsOK s) := by
  unfold ChannelsOK; infer_instance

instance (s : apa102Object) : Decidable (WF s) := by
  unfold WF; infer_instance

/-- Every pixel's marker byte (offset 0 of its group) has its top three bits set. -/
def MarkersOK (s : apa102Object) : Prop :=
  ∀ i, i < s.num_led → ∃ v, s.leds[4 * i]? = some v ∧ v &&& 0xE0 = 0xE0

/-- Object states reachable from the constructor through calls of the mutating
methods that return normally. -/
inductive Reachable : apa102Object → Prop where
  | init (num_led : Nat) (spi_write : Bool) (global_brightness : Option Nat)
      (order : Option (List Char)) :
      Reachable (apa102_init num_led spi_write global_brightness order)
  | set_pixel {s s2 : apa102Object} (led_num : Int) (r g b br : Nat) :
      Reachable s → apa102_set_pixel s led_num r g b br = .ok s2 → Reachable s2
  | set_pixel_rgb {s s2 : apa102Object} (led_num rgb : Int) (br : Nat) :
      Reachable s → apa102_set_pixel_rgb s led_num rgb br = .ok s2 → Reachable s2
  | set_range {s s2 : apa102Object} (start stop : Int) (r g b br : Nat) :
      Reachable s → apa102_set_range s start stop r g b br = .ok s2 → Reachable s2
  | set_range_rgb {s s2 : apa102Object} (start stop rgb : Int) (br : Nat) :
      Reachable s → apa102_set_range_rgb s start stop rgb br = .ok s2 → Reachable s2
  | set_all {s s2 : apa102Object} (r g b br : Nat) :
      Reachable s → apa102_set_all s r g b br = .ok s2 → Reachable s2
  | set_all_rgb {s s2 : apa102Object} (rgb : Int) (br : Nat) :
      Reachable s → apa102_set_all_rgb s rgb br = .ok s2 → Reachable s2
  | clear_strip {s s2 : apa102Object} :
      Reachable s → apa102_clear_strip s = .ok s2 → Reachable s2
  | rotate {s s2 : apa102Object} (positions : Int) :
      Reachable s → apa102_rotate s positions = .ok s2 → Reachable s2

/-- Invariant of the order scan after `i` characters: a channel seen at least
once holds an offset `3 - j` of a scanned position `j < i`, and two channels seen
hold different offsets. -/
def ScanInv (i : Nat) (st : OrderScan) : Prop :=
  (1 ≤ st.r_count → 3 < st.rgb_RED + i ∧ st.rgb_RED ≤ 3) ∧
  (1 ≤ st.g_count → 3 < st.rgb_GRN + i ∧ st.rgb_GRN ≤ 3) ∧
  (1 ≤ st.b_count → 3 < st.rgb_BLU + i ∧ st.rgb_BLU ≤ 3) ∧
  (1 ≤ st.r_count → 1 ≤ st.g_count → st.rgb_RED ≠ st.rgb_GRN) ∧
  (1 ≤ st.g_count → 1 ≤ st.b_count → st.rgb_GRN ≠ st.rgb_BLU) ∧
  (1 ≤ st.r_count → 1 ≤ st.b_count → st.rgb_RED ≠ st.rgb_BLU)

/-- The 17-byte frame expected from `show` on a three-pixel strip at full
brightness, default channel order, every pixel set to red `(255, 0, 0)`. -/
def redFrame : List Nat :=
  [0, 0, 0, 0, 0xFF, 0, 0, 0xFF, 0xFF, 0, 0, 0xFF, 0xFF, 0, 0, 0xFF, 0]

/-- The four bytes of pixel group `i` of a buffer. -/
def pixelAt (m : List Nat) (i : Nat) : List Nat :=
  (m.drop (4 * i)).take 4

/-- The marker byte in the words of the specification: the argument clamped to
31, times the global brightness, divided by 31 rounding down, masked to five
bits and combined with the fixed pattern `0xE0`. -/
def markerOfSpec (br g : Nat) : Nat :=
  0xE0 ||| ((min br 31 * g / 31) &&& 0x1F)

/-- The byte a set operation leaves at offset `off` of a pixel it writes. -/
def pixelByte (s : apa102Object) (bright r g b : Nat) (off : Nat) : Nat :=
  if off = s.rgb_BLU then b % 256
  else if off = s.rgb_GRN then g % 256
  else if off = s.rgb_RED then r % 256
  else bright % 256

/-! ## Memory primitives -/

theorem store_nat (m : List Nat) (k v : Nat) (h : k < m.length) :
    store m (k : Int) v = .ok (m.set k v) := by
  simp [store, h]

theorem rd_nat (m : List Nat) (k : Nat) (h : k < m.length) :
    rd m (k : Int) = .ok (m.getD k 0) := by
  simp [rd, h]

theorem rd_nat_of_getElem? (m : List Nat) (k v : Nat) (h : m[k]? = some v) :
    rd m (k : Int) = .ok v := by
  have hk : k < m.length := by
    rcases Nat.lt_or_ge k m.length with h1 | h1
    · exact h1
    · rw [List.getElem?_eq_none h1] at h; cases h
  rw [rd_nat m k hk]; simp [h]

theorem writePixel_ok (s : apa102Object) (bright r g b j : Nat) (m : List Nat)
    (hlen : 4 * j + 3 < m.length) (hR : s.rgb_RED ≤ 3) (hG : s.rgb_GRN ≤ 3)
    (hB : s.rgb_BLU ≤ 3) :
    writePixel s bright r g b (j : Int) m =
      .ok ((((m.set (4 * j) (bright % 256)).set (4 * j + s.rgb_RED) (r % 256)).set
        (4 * j + s.rgb_GRN) (g % 256)).set (4 * j + s.rgb_BLU) (b % 256)) := by
  have e0 : (j : Int) * ((BYTES_PER_LED : Nat) : Int) = ((4 * j : Nat) : Int) := by
    push_cast; ring
  have eR : ((4 * j : Nat) : Int) + (s.rgb_RED : Int) = ((4 * j + s.rgb_RED : Nat) : Int) := by
    push_cast; ring
  have eG : ((4 * j : Nat) : Int) + (s.rgb_GRN : Int) = ((4 * j + s.rgb_GRN : Nat) : Int) := by
    push_cast; ring
  have eB : ((4 * j : Nat) : Int) + (s.rgb_BLU : Int) = ((4 * j + s.rgb_BLU : Nat) : Int) := by
    push_cast; ring
  unfold writePixel wr
  dsimp only
  rw [e0, eR, eG, eB]
  rw [store_nat _ _ _ (by omega)]
  simp only [bind, Except.bind]
  rw [store_nat _ _ _ (by simp; omega)]
  simp only [bind, Except.bind]
  rw [store_nat _ _ _ (by simp; omega)]
  simp only [bind, Except.bind]
  rw [store_nat _ _ _ (by simp; omega)]

theorem writePixel_spec (s : apa102Object) (bright r g b j : Nat) (m : List Nat)
    (hc : ChannelsOK s) (hlen : 4 * j + 3 < m.length) :
    ∃ m2, writePixel s bright r g b (j : Int) m = .ok m2 ∧ m2.length = m.length ∧
      ∀ k, m2[k]? = if 4 * j ≤ k ∧ k < 4 * j + 4
        then some (pixelByte s bright r g b (k % 4)) else m[k]? := by
  obtain ⟨⟨hR1, hR3⟩, ⟨hG1, hG3⟩, ⟨hB1, hB3⟩, hRG, hGB, hRB⟩ := hc
  refine ⟨_, writePixel_ok s bright r g b j m hlen hR3 hG3 hB3, by simp, fun k => ?_⟩
  simp only [List.getElem?_set, List.length_set, pixelByte]
  have hk4 : k % 4 < 4 := Nat.mod_lt _ (by norm_num)
  split_ifs <;> first | rfl | (exfalso; omega)

theorem forLoop_succ {σ : Type} (body : Int → σ → Except Fault σ) (step : Int) (cnt : Nat)
    (i : Int) (st : σ) :
    forLoop body step (cnt + 1) i st = body i st >>= forLoop body step cnt (i + step) := rfl

theorem forLoop_writePixel (s : apa102Object) (bright r g b : Nat) (hc : ChannelsOK s) :
    ∀ (cnt a : Nat) (m : List Nat), 4 * (a + cnt) ≤ m.length →
      ∃ m2, forLoop (writePixel s bright r g b) 1 cnt (a : Int) m = .ok m2 ∧
        m2.length = m.length ∧
        ∀ k, m2[k]? = if 4 * a ≤ k ∧ k < 4 * (a + cnt)
          then some (pixelByte s bright r g b (k % 4)) else m[k]? := by
  intro cnt
  induction cnt with
  | zero =>
    intro a m _
    refine ⟨m, rfl, rfl, fun k => ?_⟩
    rw [if_neg (by omega)]
  | succ c ih =>
    intro a m hlen
    obtain ⟨m1, h1, hl1, hp1⟩ := writePixel_spec s bright r g b a m hc (by omega)
    obtain ⟨m2, h2, hl2, hp2⟩ := ih (a + 1) m1 (by omega)
    refine ⟨m2, ?_, by omega, fun k => ?_⟩
    · rw [forLoop_succ, h1]
      have : ((a : Int) + 1) = ((a + 1 : Nat) : Int) := by push_cast; rfl
      rw [this]
      exact h2
    · rw [hp2, hp1]
      split_ifs <;> first | rfl | (exfalso; omega)

/-! ## Construction -/

theorem scanOrder_inv (o : List Char) : ∀ (left i : Nat) (st : OrderScan),
    i + left ≤ 3 → ScanInv i st → ∃ i2, i2 ≤ 3 ∧ ScanInv i2 (scanOrder o left i st) := by
  intro left
  induction left with
  | zero => intro i st hi h; exact ⟨i, by omega, h⟩
  | succ l ih =>
    intro i st hi h
    obtain ⟨hr, hg, hb, hrg, hgb, hrb⟩ := h
    unfold scanOrder
    dsimp only
    split_ifs
    · apply ih (i + 1) _ (by omega)
      refine ⟨?_, ?_, ?_, ?_, ?_, ?_⟩ <;> dsimp only <;> intros <;> omega
    · apply ih (i + 1) _ (by omega)
      refine ⟨?_, ?_, ?_, ?_, ?_, ?_⟩ <;> dsimp only <;> intros <;> omega
    · apply ih (i + 1) _ (by omega)
      refine ⟨?_, ?_, ?_, ?_, ?_, ?_⟩ <;> dsimp only <;> intros <;> omega
    · exact ⟨i, by omega, hr, hg, hb, hrg, hgb, hrb⟩
    · apply ih (i + 1) _ (by omega)
      refine ⟨?_, ?_, ?_, ?_, ?_, ?_⟩ <;> intros <;> omega

theorem scanOrder_accept (o : List Char) (h : (scanOrder o 3 0 ⟨0, 0, 0, 0, 0, 0⟩).r_count = 1 ∧
      (scanOrder o 3 0 ⟨0, 0, 0, 0, 0, 0⟩).g_count = 1 ∧
      (scanOrder o 3 0 ⟨0, 0, 0, 0, 0, 0⟩).b_count = 1) :
    (1 ≤ (scanOrder o 3 0 ⟨0, 0, 0, 0, 0, 0⟩).rgb_RED ∧
        (scanOrder o 3 0 ⟨0, 0, 0, 0, 0, 0⟩).rgb_RED ≤ 3) ∧
      (1 ≤ (scanOrder o 3 0 ⟨0, 0, 0, 0, 0, 0⟩).rgb_GRN ∧
        (scanOrder o 3 0 ⟨0, 0, 0, 0, 0, 0⟩).rgb_GRN ≤ 3) ∧
      (1 ≤ (scanOrder o 3 0 ⟨0, 0, 0, 0, 0, 0⟩).rgb_BLU ∧
        (scanOrder o 3 0 ⟨0, 0, 0, 0, 0, 0⟩).rgb_BLU ≤ 3) ∧
      (scanOrder o 3 0 ⟨0, 0, 0, 0, 0, 0⟩).rgb_RED ≠ (scanOrder o 3 0 ⟨0, 0, 0, 0, 0, 0⟩).rgb_GRN ∧
      (scanOrder o 3 0 ⟨0, 0, 0, 0, 0, 0⟩).rgb_GRN ≠ (scanOrder o 3 0 ⟨0, 0, 0, 0, 0, 0⟩).rgb_BLU ∧
      (scanOrder o 3 0 ⟨0, 0, 0, 0, 0, 0⟩).rgb_RED ≠ (scanOrder o 3 0 ⟨0, 0, 0, 0, 0, 0⟩).rgb_BLU := by
  obtain ⟨i2, hi2, hr, hg, hb, hrg, hgb, hrb⟩ :=
    scanOrder_inv o 3 0 ⟨0, 0, 0, 0, 0, 0⟩ (by omega)
      ⟨by simp, by simp, by simp, by simp, by simp, by simp⟩
  obtain ⟨h1, h2, h3⟩ := h
  have := hr (by omega)
  have := hg (by omega)
  have := hb (by omega)
  exact ⟨by omega, by omega, by omega, hrg (by omega) (by omega), hgb (by omega) (by omega),
    hrb (by omega) (by omega)⟩

theorem initMarkers_length (n : Nat) : ∀ (fuel i : Nat) (m : List Nat),
    (initMarkers n fuel i m).length = m.length := by
  intro fuel
  induction fuel with
  | zero => intro i m; rfl
  | succ f ih =>
    intro i m
    unfold initMarkers
    split_ifs
    · rw [ih]; simp
    · rfl

theorem mem_set_lt {m : List Nat} {i v : Nat} (hm : ∀ x ∈ m, x < 256) (hv : v < 256) :
    ∀ x ∈ m.set i v, x < 256 := by
  intro x hx
  rcases List.mem_or_eq_of_mem_set hx with h | h
  · exact hm x h
  · rw [h]; exact hv

theorem initMarkers_bytes (n : Nat) : ∀ (fuel i : Nat) (m : List Nat),
    (∀ x ∈ m, x < 256) → ∀ x ∈ initMarkers n fuel i m, x < 256 := by
  intro fuel
  induction fuel with
  | zero => intro i m hm; exact hm
  | succ f ih =>
    intro i m hm
    unfold initMarkers
    split_ifs
    · exact ih _ _ (mem_set_lt hm (by decide))
    · exact hm

/-- Every object the constructor returns is well formed, whatever the pixel
count, the callback, the global brightness and the order string. -/
theorem init_WF (num_led : Nat) (spi_write : Bool) (global_brightness : Option Nat)
    (order : Option (List Char)) :
    WF (apa102_init num_led spi_write global_brightness order) := by
  refine ⟨by rfl, ?_, ?_, ?_, ?_⟩
  · simp [apa102_init, initMarkers_length]
  · cases order with
    | none => unfold ChannelsOK apa102_init; simp
    | some o =>
      by_cases h : (scanOrder o 3 0 ⟨0, 0, 0, 0, 0, 0⟩).r_count = 1 ∧
        (scanOrder o 3 0 ⟨0, 0, 0, 0, 0, 0⟩).g_count = 1 ∧
        (scanOrder o 3 0 ⟨0, 0, 0, 0, 0, 0⟩).b_count = 1
      · have := scanOrder_accept o h
        unfold ChannelsOK apa102_init
        simp only [h, and_self, decide_True, Bool.not_true, Bool.false_eq_true, if_false]
        exact this
      · unfold ChannelsOK apa102_init
        simp [h]
  · show (if _ then _ else _) ≤ 31
    simp only [MAX_BRIGHTNESS]
    split_ifs <;> omega
  · show ∀ x ∈ initMarkers _ _ _ _, x < 256
    apply initMarkers_bytes
    intro x hx
    rw [List.eq_of_mem_replicate hx]
    decide

theorem initMarkers_spec (n : Nat) : ∀ (fuel i : Nat) (m : List Nat), m.length = n →
    ∀ k, k % 4 = 0 → k + 3 < n →
      (k < i → (initMarkers n fuel i m)[k]? = m[k]?) ∧
      (i ≤ k → k < i + 4 * fuel → i % 4 = 0 → (initMarkers n fuel i m)[k]? = some LED_START) := by
  intro fuel
  induction fuel with
  | zero =>
    intro i m _ k _ _
    exact ⟨fun _ => rfl, fun h1 h2 => by omega⟩
  | succ f ih =>
    intro i m hm k hk4 hkn
    unfold initMarkers
    by_cases hi : i + 3 < n
    · rw [if_pos hi]
      obtain ⟨ih1, ih2⟩ := ih (i + 4) (m.set i LED_START) (by simpa using hm) k hk4 hkn
      refine ⟨fun h => ?_, fun h1 h2 h3 => ?_⟩
      · rw [ih1 (by omega), List.getElem?_set_ne (by omega)]
      · rcases Nat.lt_or_ge k (i + 4) with h | h
        · have hki : k = i := by omega
          rw [ih1 h, hki, List.getElem?_set, if_pos rfl, if_pos (by omega)]
        · exact ih2 h (by omega) (by omega)
    · rw [if_neg hi]
      exact ⟨fun _ => rfl, fun h1 _ _ => by omega⟩

theorem init_MarkersOK (num_led : Nat) (spi_write : Bool) (global_brightness : Option Nat)
    (order : Option (List Char)) :
    MarkersOK (apa102_init num_led spi_write global_brightness order) := by
  intro i hi
  have hi2 : i < num_led := hi
  refine ⟨LED_START, ?_, by decide⟩
  exact (initMarkers_spec (num_led * 4) (num_led * 4) 0 (List.replicate (num_led * 4) 0)
    (by simp) (4 * i) (by omega) (by omega)).2 (by omega) (by omega) (by omega)

theorem bright_byte_eq (s : apa102Object) (led_brightness : Nat) :
    bright_byte s led_brightness = brightByte s led_brightness := by
  unfold bright_byte brightByte
  have h1 : ∀ y : Nat, y &&& LED_BRIGHT_MASK = y % 32 := fun y =>
    Nat.and_pow_two_sub_one_eq_mod y 5
  rw [h1, h1, Nat.mod_mod_of_dvd _ (by norm_num : 32 ∣ 256)]
  apply Nat.mod_eq_of_lt
  have h2 : led_brightness * s.brightness / 31 % 32 < 32 := Nat.mod_lt _ (by norm_num)
  exact Nat.or_lt_two_pow (n := 8) (by omega) (by decide)

/-! ## Set operations -/

theorem pixelByte_lt (s : apa102Object) (bright r g b off : Nat) :
    pixelByte s bright r g b off < 256 := by
  unfold pixelByte
  split_ifs <;> exact Nat.mod_lt _ (by norm_num)

theorem set_pixel_rgb_eq (s : apa102Object) (led_num rgb : Int) (led_brightness : Nat) :
    apa102_set_pixel_rgb s led_num rgb led_brightness =
      apa102_set_pixel s led_num (channelOf rgb 16) (channelOf rgb 8) (channelOf rgb 0)
        led_brightness := rfl

theorem set_range_rgb_eq (s : apa102Object) (start stop rgb : Int) (led_brightness : Nat) :
    apa102_set_range_rgb s start stop rgb led_brightness =
      apa102_set_range s start stop (channelOf rgb 16) (channelOf rgb 8) (channelOf rgb 0)
        led_brightness := rfl

theorem set_all_rgb_eq (s : apa102Object) (rgb : Int) (led_brightness : Nat) :
    apa102_set_all_rgb s rgb led_brightness =
      apa102_set_all s (channelOf rgb 16) (channelOf rgb 8) (channelOf rgb 0)
        led_brightness := rfl

theorem set_pixel_spec (s : apa102Object) (hs : WF s) (j : Nat) (hj : j < s.num_led)
    (r g b br : Nat) :
    ∃ m2, apa102_set_pixel s (j : Int) r g b br = .ok { s with leds := m2 } ∧
      m2.length = s.leds.length ∧
      ∀ k, m2[k]? = if 4 * j ≤ k ∧ k < 4 * j + 4
        then some (pixelByte s (brightByte s (clampBrightness br)) r g b (k % 4))
        else s.leds[k]? := by
  obtain ⟨hn, hl, hc, _, _⟩ := hs
  obtain ⟨m2, h1, hl2, hp⟩ :=
    writePixel_spec s (brightByte s (clampBrightness br)) r g b j s.leds hc (by omega)
  refine ⟨m2, ?_, hl2, hp⟩
  unfold apa102_set_pixel
  have hg : ((j : Int) < (s.num_led : Int) ∧ (j : Int) ≥ 0) := ⟨by exact_mod_cast hj, by positivity⟩
  simp only [hg, and_self, if_true, h1]
  rfl

theorem set_range_spec (s : apa102Object) (hs : WF s) (a e : Nat) (hae : a ≤ e)
    (he : e < s.num_led) (r g b br : Nat) :
    ∃ m2, apa102_set_range s (a : Int) (e : Int) r g b br = .ok { s with leds := m2 } ∧
      m2.length = s.leds.length ∧
      ∀ k, m2[k]? = if 4 * a ≤ k ∧ k < 4 * e
        then some (pixelByte s (brightByte s (clampBrightness br)) r g b (k % 4))
        else s.leds[k]? := by
  obtain ⟨hn, hl, hc, _, _⟩ := hs
  obtain ⟨m2, h1, hl2, hp⟩ :=
    forLoop_writePixel s (brightByte s (clampBrightness br)) r g b hc (e - a) a s.leds (by omega)
  refine ⟨m2, ?_, hl2, fun k => ?_⟩
  · unfold apa102_set_range
    have hg : ¬ ((a : Int) < 0 ∨ (e : Int) ≥ (s.num_led : Int) ∨ (a : Int) > (e : Int)) := by
      omega
    have hcnt : ((e : Int) - (a : Int)).toNat = e - a := by omega
    simp only [hg, if_false, hcnt, bright_byte_eq, h1]
    rfl
  · rw [hp]
    have : a + (e - a) = e := by omega
    rw [this]

theorem set_all_spec (s : apa102Object) (hs : WF s) (r g b br : Nat) :
    ∃ m2, apa102_set_all s r g b br = .ok { s with leds := m2 } ∧
      m2.length = s.leds.length ∧
      ∀ k, m2[k]? = if k < 4 * s.num_led
        then some (pixelByte s (brightByte s (clampBrightness br)) r g b (k % 4))
        else s.leds[k]? := by
  obtain ⟨hn, hl, hc, _, _⟩ := hs
  obtain ⟨m2, h1, hl2, hp⟩ :=
    forLoop_writePixel s (brightByte s (clampBrightness br)) r g b hc s.num_led 0 s.leds (by omega)
  refine ⟨m2, ?_, hl2, fun k => ?_⟩
  · unfold apa102_set_all
    simp only [Nat.cast_zero] at h1
    simp only [bind, Except.bind, bright_byte_eq, h1]
    rfl
  · rw [hp]
    simp

/-! ## Queries -/

theorem get_pixel_color_of_bytes (s : apa102Object) (j : Nat) (hj : j ≤ s.num_led)
    (vr vg vb : Nat) (hr : s.leds[4 * j + s.rgb_RED]? = some vr)
    (hg : s.leds[4 * j + s.rgb_GRN]? = some vg) (hb : s.leds[4 * j + s.rgb_BLU]? = some vb) :
    apa102_get_pixel_color s (j : Int) = .ok (some (vr, vg, vb)) := by
  unfold apa102_get_pixel_color
  have hgd : ¬ ((j : Int) < 0 ∨ (j : Int) > (s.num_led : Int)) := by omega
  have eR : (j : Int) * ((BYTES_PER_LED : Nat) : Int) + (s.rgb_RED : Int)
      = ((4 * j + s.rgb_RED : Nat) : Int) := by push_cast; ring
  have eG : (j : Int) * ((BYTES_PER_LED : Nat) : Int) + (s.rgb_GRN : Int)
      = ((4 * j + s.rgb_GRN : Nat) : Int) := by push_cast; ring
  have eB : (j : Int) * ((BYTES_PER_LED : Nat) : Int) + (s.rgb_BLU : Int)
      = ((4 * j + s.rgb_BLU : Nat) : Int) := by push_cast; ring
  rw [if_neg hgd, eR, eG, eB, rd_nat_of_getElem? _ _ _ hr, rd_nat_of_getElem? _ _ _ hg,
    rd_nat_of_getElem? _ _ _ hb]
  rfl

/-! ## Brightness arithmetic -/

theorem clampBrightness_eq (br : Nat) : clampBrightness br = min br 31 := by
  unfold clampBrightness MAX_BRIGHTNESS
  rw [Nat.min_def]
  split_ifs <;> omega

theorem scaled_le (br g : Nat) : min br 31 * g / 31 ≤ g := by
  apply Nat.div_le_of_le_mul
  have : min br 31 ≤ 31 := Nat.min_le_right _ _
  exact Nat.mul_le_mul_right g this

theorem field_bits : ∀ q < 32, (224 ||| (q &&& 31)) &&& 31 = q ∧ 224 ||| (q &&& 31) < 256 ∧
    (224 ||| (q &&& 31)) &&& 224 = 224 := by
  decide

theorem brightByte_eq_markerOfSpec (s : apa102Object) (hg : s.brightness ≤ 31) (br : Nat) :
    brightByte s (clampBrightness br) % 256 = markerOfSpec br s.brightness := by
  have hq := scaled_le br s.brightness
  unfold brightByte markerOfSpec
  rw [clampBrightness_eq, Nat.mod_eq_of_lt (show min br 31 * s.brightness / 31 < 256 by omega),
    Nat.or_comm]
  exact Nat.mod_eq_of_lt (field_bits _ (by omega)).2.1

theorem pixelByte_marker (s : apa102Object) (hc : ChannelsOK s) (bright r g b k : Nat)
    (hk : k % 4 = 0) : pixelByte s bright r g b (k % 4) = bright % 256 := by
  obtain ⟨⟨hR1, _⟩, ⟨hG1, _⟩, ⟨hB1, _⟩, _⟩ := hc
  unfold pixelByte
  rw [hk, if_neg (by omega), if_neg (by omega), if_neg (by omega)]

theorem pixelByte_red (s : apa102Object) (hc : ChannelsOK s) (bright r g b j : Nat) :
    pixelByte s bright r g b ((4 * j + s.rgb_RED) % 4) = r % 256 := by
  obtain ⟨⟨hR1, hR3⟩, ⟨hG1, _⟩, ⟨hB1, _⟩, hRG, hGB, hRB⟩ := hc
  have : (4 * j + s.rgb_RED) % 4 = s.rgb_RED := by omega
  unfold pixelByte
  rw [this, if_neg hRB, if_neg hRG, if_pos rfl]

theorem pixelByte_grn (s : apa102Object) (hc : ChannelsOK s) (bright r g b j : Nat) :
    pixelByte s bright r g b ((4 * j + s.rgb_GRN) % 4) = g % 256 := by
  obtain ⟨⟨hR1, hR3⟩, ⟨hG1, hG3⟩, ⟨hB1, _⟩, hRG, hGB, hRB⟩ := hc
  have : (4 * j + s.rgb_GRN) % 4 = s.rgb_GRN := by omega
  unfold pixelByte
  rw [this, if_neg hGB, if_pos rfl]

theorem pixelByte_blu (s : apa102Object) (hc : ChannelsOK s) (bright r g b j : Nat) :
    pixelByte s bright r g b ((4 * j + s.rgb_BLU) % 4) = b % 256 := by
  obtain ⟨⟨hR1, hR3⟩, ⟨hG1, hG3⟩, ⟨hB1, hB3⟩, hRG, hGB, hRB⟩ := hc
  have : (4 * j + s.rgb_BLU) % 4 = s.rgb_BLU := by omega
  unfold pixelByte
  rw [this, if_pos rfl]

theorem marker_written (s : apa102Object) (hs : WF s) (br r g b i : Nat) :
    pixelByte s (brightByte s (clampBrightness br)) r g b (4 * i % 4)
      = markerOfSpec br s.brightness := by
  rw [pixelByte_marker s hs.2.2.1 _ r g b (4 * i) (by omega)]
  exact brightByte_eq_markerOfSpec s hs.2.2.2.1 br

theorem set_pixel_marker (s : apa102Object) (hs : WF s) (br r g b i : Nat)
    (hi : i < s.num_led) :
    ∃ s2, apa102_set_pixel s (i : Int) r g b br = .ok s2 ∧
      s2.leds[4 * i]? = some (markerOfSpec br s.brightness) := by
  obtain ⟨m2, hset, _, hp⟩ := set_pixel_spec s hs i hi r g b br
  refine ⟨_, hset, ?_⟩
  show m2[4 * i]? = _
  rw [hp, if_pos (by omega), marker_written s hs]

theorem set_range_marker (s : apa102Object) (hs : WF s) (br r g b start stop : Nat)
    (h1 : start ≤ stop) (h2 : stop < s.num_led) :
    ∃ s2, apa102_set_range s (start : Int) (stop : Int) r g b br = .ok s2 ∧
      ∀ i, start ≤ i → i < stop → s2.leds[4 * i]? = some (markerOfSpec br s.brightness) := by
  obtain ⟨m2, hset, _, hp⟩ := set_range_spec s hs start stop h1 h2 r g b br
  refine ⟨_, hset, fun i hi1 hi2 => ?_⟩
  show m2[4 * i]? = _
  rw [hp, if_pos (by omega), marker_written s hs]

theorem set_all_marker (s : apa102Object) (hs : WF s) (br r g b : Nat) :
    ∃ s2, apa102_set_all s r g b br = .ok s2 ∧
      ∀ i, i < s.num_led → s2.leds[4 * i]? = some (markerOfSpec br s.brightness) := by
  obtain ⟨m2, hset, _, hp⟩ := set_all_spec s hs r g b br
  refine ⟨_, hset, fun i hi => ?_⟩
  show m2[4 * i]? = _
  rw [hp, if_pos (by omega), marker_written s hs]

theorem markerOfSpec_field (br g : Nat) (hg : g ≤ 31) :
    markerOfSpec br g &&& 0x1F = min br 31 * g / 31 := by
  have hq := scaled_le br g
  unfold markerOfSpec
  exact (field_bits _ (by omega)).1

/-! ## clear_strip -/

theorem clearBody_spec (a : Nat) (m : List Nat) (h : a < m.length) :
    ∃ m1, clearBody (a : Int) m = .ok m1 ∧ m1.length = m.length ∧
      ∀ k, m1[k]? = if k = a ∧ a % 4 ≠ 0 then some 0 else m[k]? := by
  unfold clearBody wr
  by_cases h4 : a % 4 = 0
  · have : ¬ ((a : Int) % ((BYTES_PER_LED : Nat) : Int) ≠ 0) := by
      simp only [BYTES_PER_LED]; omega
    rw [if_neg this]
    refine ⟨m, rfl, rfl, fun k => ?_⟩
    rw [if_neg (by omega)]
  · have : (a : Int) % ((BYTES_PER_LED : Nat) : Int) ≠ 0 := by
      simp only [BYTES_PER_LED]; omega
    rw [if_pos this, store_nat _ _ _ h]
    refine ⟨_, rfl, by simp, fun k => ?_⟩
    rw [List.getElem?_set]
    split_ifs <;> first | rfl | (exfalso; omega)

theorem forLoop_clearBody :
    ∀ (cnt a : Nat) (m : List Nat), a + cnt ≤ m.length →
      ∃ m2, forLoop clearBody 1 cnt (a : Int) m = .ok m2 ∧ m2.length = m.length ∧
        ∀ k, m2[k]? = if a ≤ k ∧ k < a + cnt ∧ k % 4 ≠ 0
          then some 0 else m[k]? := by
  intro cnt
  induction cnt with
  | zero =>
    intro a m _
    refine ⟨m, rfl, rfl, fun k => ?_⟩
    rw [if_neg (by omega)]
  | succ c ih =>
    intro a m hlen
    obtain ⟨m1, h1, hl1, hp1⟩ := clearBody_spec a m (by omega)
    obtain ⟨m2, h2, hl2, hp2⟩ := ih (a + 1) m1 (by omega)
    refine ⟨m2, ?_, by omega, fun k => ?_⟩
    · rw [forLoop_succ, h1]
      have : ((a : Int) + 1) = ((a + 1 : Nat) : Int) := by push_cast; rfl
      rw [this]
      exact h2
    · rw [hp2, hp1]
      split_ifs <;> first | rfl | (exfalso; omega)

theorem clear_strip_spec (s : apa102Object) (hs : WF s) :
    ∃ m2, apa102_clear_strip s = .ok { s with leds := m2 } ∧ m2.length = s.leds.length ∧
      ∀ k, m2[k]? = if k % 4 ≠ 0 ∧ k < s.leds.length then some 0 else s.leds[k]? := by
  obtain ⟨hn, hl, _⟩ := hs
  obtain ⟨m2, h1, hl2, hp⟩ := forLoop_clearBody s.num_led_array 0 s.leds (by omega)
  refine ⟨m2, ?_, hl2, fun k => ?_⟩
  · unfold apa102_clear_strip
    simp only [Nat.cast_zero] at h1
    simp only [bind, Except.bind, h1]
    rfl
  · rw [hp]
    by_cases hk : k % 4 ≠ 0 ∧ k < s.leds.length
    · rw [if_pos hk, if_pos (by omega)]
    · rw [if_neg hk]
      by_cases hk2 : k < s.leds.length
      · rw [if_neg (by omega)]
      · rw [List.getElem?_eq_none (by omega)]
        split_ifs <;> first | rfl | (exfalso; omega)

/-! ## show -/

theorem forLoop_zeroFill :
    ∀ (cnt a : Nat) (l : List (Option Nat)),
      ∃ l2, forLoop (fun i (l : List (Option Nat)) => pure (l.set i.toNat (some 0))) 1 cnt
          (a : Int) l = .ok l2 ∧ l2.length = l.length ∧
        ∀ k, l2[k]? = if a ≤ k ∧ k < a + cnt ∧ k < l.length then some (some 0) else l[k]? := by
  intro cnt
  induction cnt with
  | zero =>
    intro a l
    refine ⟨l, rfl, rfl, fun k => ?_⟩
    rw [if_neg (by omega)]
  | succ c ih =>
    intro a l
    obtain ⟨l2, h2, hl2, hp2⟩ := ih (a + 1) (l.set a (some 0))
    refine ⟨l2, ?_, by simpa using hl2, fun k => ?_⟩
    · rw [forLoop_succ]
      have : ((a : Int) + 1) = ((a + 1 : Nat) : Int) := by push_cast; rfl
      rw [this]
      simpa using h2
    · simp only [hp2, List.getElem?_set, List.length_set]
      split_ifs <;> first | rfl | (exfalso; omega) |
        (symm; apply List.getElem?_eq_none; omega)

theorem forLoop_copyLeds (leds : List Nat) :
    ∀ (cnt a : Nat) (l : List (Option Nat)), a + cnt ≤ leds.length →
      ∃ l2, forLoop (fun i (l : List (Option Nat)) => do
            let v ← rd leds i
            pure (l.set (i + 4).toNat (some v))) 1 cnt (a : Int) l = .ok l2 ∧
        l2.length = l.length ∧
        ∀ k, l2[k]? = if a + 4 ≤ k ∧ k < a + 4 + cnt ∧ k < l.length
          then some (leds[k - 4]?) else l[k]? := by
  intro cnt
  induction cnt with
  | zero =>
    intro a l _
    refine ⟨l, rfl, rfl, fun k => ?_⟩
    rw [if_neg (by omega)]
  | succ c ih =>
    intro a l hlen
    have ha : a < leds.length := by omega
    obtain ⟨l2, h2, hl2, hp2⟩ := ih (a + 1) (l.set (a + 4) (some (leds.getD a 0))) (by omega)
    refine ⟨l2, ?_, by simpa using hl2, fun k => ?_⟩
    · rw [forLoop_succ, rd_nat leds a ha]
      have e1 : ((a : Int) + 1) = ((a + 1 : Nat) : Int) := by push_cast; rfl
      have e2 : ((a : Int) + 4).toNat = a + 4 := by omega
      rw [e1]
      simp only [bind, Except.bind, pure, Except.pure, e2]
      exact h2
    · simp only [hp2, List.getElem?_set, List.length_set]
      have hget : leds[a]? = some (leds.getD a 0) := by
        simp [List.getElem?_eq_getElem ha]
      split_ifs with h1 h2 h3 <;> first | rfl | (exfalso; omega) |
        (symm; apply List.getElem?_eq_none; omega) | skip
      have : k - 4 = a := by omega
      rw [this, hget]

theorem ceil_div_sixteen (n : Nat) : Nat.ceil ((n : ℚ) / 16) = (n + 15) / 16 := by
  apply le_antisymm
  · rw [Nat.ceil_le, div_le_iff₀ (by norm_num)]
    have : n ≤ (n + 15) / 16 * 16 := by omega
    exact_mod_cast this
  · have h := Nat.le_ceil ((n : ℚ) / 16)
    rw [div_le_iff₀ (by norm_num)] at h
    have h2 : n ≤ Nat.ceil ((n : ℚ) / 16) * 16 := by exact_mod_cast h
    omega

/-! ## rotate: the copy loops -/

theorem getElem?_of_lt (l : List Nat) (k : Nat) (h : k < l.length) :
    l[k]? = some (l.getD k 0) := by
  simp [List.getElem?_eq_getElem h]

theorem saveBody_nat (l t : List Nat) (off a : Nat) (h1 : off + a < l.length)
    (h2 : a < t.length) :
    saveBody (off : Int) (a : Int) (l, t) = .ok (l, t.set a (l.getD (off + a) 0)) := by
  have e : (off : Int) + (a : Int) = ((off + a : Nat) : Int) := by push_cast; rfl
  unfold saveBody
  dsimp only
  rw [e, rd_nat _ _ h1]
  simp only [bind, Except.bind]
  rw [store_nat _ _ _ h2]
  rfl

theorem shiftBody_up_nat (l t : List Nat) (p a : Nat) (h1 : a + p < l.length) :
    shiftBody (p : Int) (a : Int) (l, t) = .ok (l.set a (l.getD (a + p) 0 % 256), t) := by
  have e : (a : Int) + (p : Int) = ((a + p : Nat) : Int) := by push_cast; rfl
  unfold shiftBody wr
  dsimp only
  rw [e, rd_nat _ _ h1]
  simp only [bind, Except.bind]
  rw [store_nat _ _ _ (by omega)]
  rfl

theorem shiftBody_down_nat (l t : List Nat) (p a : Nat) (h1 : p ≤ a) (h2 : a < l.length) :
    shiftBody (-(p : Int)) (a : Int) (l, t) = .ok (l.set a (l.getD (a - p) 0 % 256), t) := by
  have e : (a : Int) + -(p : Int) = ((a - p : Nat) : Int) := by omega
  unfold shiftBody wr
  dsimp only
  rw [e, rd_nat _ _ (by omega)]
  simp only [bind, Except.bind]
  rw [store_nat _ _ _ h2]
  rfl

theorem restoreBody_nat (l t : List Nat) (off a : Nat) (h1 : off + a < l.length)
    (h2 : a < t.length) :
    restoreBody (off : Int) (a : Int) (l, t)
      = .ok (l.set (off + a) (t.getD a 0 % 256), t) := by
  have e : (off : Int) + (a : Int) = ((off + a : Nat) : Int) := by push_cast; rfl
  unfold restoreBody wr
  dsimp only
  rw [e, rd_nat _ _ h2]
  simp only [bind, Except.bind]
  rw [store_nat _ _ _ h1]
  rfl

theorem forLoop_saveBody (l : List Nat) (off : Nat) :
    ∀ (cnt a : Nat) (t : List Nat), off + a + cnt ≤ l.length → a + cnt ≤ t.length →
      ∃ t2, forLoop (saveBody (off : Int)) 1 cnt (a : Int) (l, t) = .ok (l, t2) ∧
        t2.length = t.length ∧
        ∀ k, t2[k]? = if a ≤ k ∧ k < a + cnt then some (l.getD (off + k) 0) else t[k]? := by
  intro cnt
  induction cnt with
  | zero =>
    intro a t _ _
    refine ⟨t, rfl, rfl, fun k => ?_⟩
    rw [if_neg (by omega)]
  | succ c ih =>
    intro a t h1 h2
    obtain ⟨t2, hrun, hl2, hp2⟩ := ih (a + 1) (t.set a (l.getD (off + a) 0)) (by omega)
      (by simp; omega)
    refine ⟨t2, ?_, by simpa using hl2, fun k => ?_⟩
    · rw [forLoop_succ, saveBody_nat l t off a (by omega) (by omega)]
      have : ((a : Int) + 1) = ((a + 1 : Nat) : Int) := by push_cast; rfl
      rw [this]
      exact hrun
    · rw [hp2, List.getElem?_set]
      split_ifs <;> first | rfl | (exfalso; omega) | (subst_vars; rfl)

theorem forLoop_saveBody_fault (l : List Nat) (off : Nat) :
    ∀ (cnt a : Nat) (t : List Nat), off + a ≤ l.length → l.length < off + a + cnt →
      a + cnt ≤ t.length →
      forLoop (saveBody (off : Int)) 1 cnt (a : Int) (l, t) = .error .outOfBounds := by
  intro cnt
  induction cnt with
  | zero => intro a t h1 h2 _; omega
  | succ c ih =>
    intro a t h1 h2 h3
    rw [forLoop_succ]
    rcases Nat.lt_or_ge (off + a) l.length with h | h
    · rw [saveBody_nat l t off a h (by omega)]
      have : ((a : Int) + 1) = ((a + 1 : Nat) : Int) := by push_cast; rfl
      rw [this]
      exact ih (a + 1) _ (by omega) (by omega) (by simp; omega)
    · have hrd : rd l ((off : Int) + (a : Int)) = .error .outOfBounds := by
        unfold rd
        rw [if_neg (by omega)]
      unfold saveBody
      dsimp only
      rw [hrd]
      rfl

theorem forLoop_shiftBody_up (t : List Nat) (p : Nat) :
    ∀ (cnt a : Nat) (l : List Nat), a + cnt + p ≤ l.length → 1 ≤ p →
      ∃ l2, forLoop (shiftBody (p : Int)) 1 cnt (a : Int) (l, t) = .ok (l2, t) ∧
        l2.length = l.length ∧
        ∀ k, l2[k]? = if a ≤ k ∧ k < a + cnt then some (l.getD (k + p) 0 % 256)
          else l[k]? := by
  intro cnt
  induction cnt with
  | zero =>
    intro a l _ _
    refine ⟨l, rfl, rfl, fun k => ?_⟩
    rw [if_neg (by omega)]
  | succ c ih =>
    intro a l h1 hp
    obtain ⟨l2, hrun, hl2, hp2⟩ := ih (a + 1) (l.set a (l.getD (a + p) 0 % 256))
      (by simp; omega) hp
    refine ⟨l2, ?_, by simpa using hl2, fun k => ?_⟩
    · rw [forLoop_succ, shiftBody_up_nat l t p a (by omega)]
      have : ((a : Int) + 1) = ((a + 1 : Nat) : Int) := by push_cast; rfl
      rw [this]
      exact hrun
    · rw [hp2, List.getElem?_set]
      simp only [List.getD_eq_getElem?_getD, List.getElem?_set]
      split_ifs <;> first | rfl | (exfalso; omega) | (subst_vars; rfl)

theorem forLoop_shiftBody_down (t : List Nat) (p : Nat) :
    ∀ (cnt b : Nat) (l : List Nat), p ≤ b + 1 → b + cnt < l.length →
      ∃ l2, forLoop (shiftBody (-(p : Int))) (-1) cnt ((b + cnt : Nat) : Int) (l, t)
          = .ok (l2, t) ∧
        l2.length = l.length ∧
        ∀ k, l2[k]? = if b < k ∧ k ≤ b + cnt then some (l.getD (k - p) 0 % 256)
          else l[k]? := by
  intro cnt
  induction cnt with
  | zero =>
    intro b l _ _
    refine ⟨l, rfl, rfl, fun k => ?_⟩
    rw [if_neg (by omega)]
  | succ c ih =>
    intro b l hp h1
    obtain ⟨l2, hrun, hl2, hp2⟩ := ih b (l.set (b + (c + 1)) (l.getD (b + (c + 1) - p) 0 % 256))
      hp (by simp; omega)
    refine ⟨l2, ?_, by simpa using hl2, fun k => ?_⟩
    · rw [forLoop_succ, shiftBody_down_nat l t p (b + (c + 1)) (by omega) h1]
      have : (((b + (c + 1) : Nat) : Int) + -1) = ((b + c : Nat) : Int) := by omega
      rw [this]
      exact hrun
    · rw [hp2, List.getElem?_set]
      simp only [List.getD_eq_getElem?_getD, List.getElem?_set]
      split_ifs <;> first | rfl | (exfalso; omega) | (subst_vars; rfl)

theorem forLoop_restoreBody (t : List Nat) (off : Nat) :
    ∀ (cnt a : Nat) (l : List Nat), off + a + cnt ≤ l.length → a + cnt ≤ t.length →
      ∃ l2, forLoop (restoreBody (off : Int)) 1 cnt (a : Int) (l, t) = .ok (l2, t) ∧
        l2.length = l.length ∧
        ∀ k, l2[k]? = if off + a ≤ k ∧ k < off + a + cnt
          then some (t.getD (k - off) 0 % 256) else l[k]? := by
  intro cnt
  induction cnt with
  | zero =>
    intro a l _ _
    refine ⟨l, rfl, rfl, fun k => ?_⟩
    rw [if_neg (by omega)]
  | succ c ih =>
    intro a l h1 h2
    obtain ⟨l2, hrun, hl2, hp2⟩ := ih (a + 1) (l.set (off + a) (t.getD a 0 % 256))
      (by simp; omega) (by omega)
    refine ⟨l2, ?_, by simpa using hl2, fun k => ?_⟩
    · rw [forLoop_succ, restoreBody_nat l t off a (by omega) (by omega)]
      have : ((a : Int) + 1) = ((a + 1 : Nat) : Int) := by push_cast; rfl
      rw [this]
      exact hrun
    · rw [hp2, List.getElem?_set]
      split_ifs with h3 h4 h5 <;> first | rfl | (exfalso; omega) | skip
      have : k - off = a := by omega
      rw [this]

/-! ## rotate: the two branches -/

theorem getD_lt_of_bytes (l : List Nat) (hb : ∀ x ∈ l, x < 256) (i : Nat) :
    l.getD i 0 < 256 := by
  rcases Nat.lt_or_ge i l.length with h | h
  · have := getElem?_of_lt l i h
    exact hb _ (List.mem_iff_getElem?.mpr ⟨i, this⟩)
  · rw [List.getD_eq_getElem?_getD, List.getElem?_eq_none h]
    decide

theorem getD_of_getElem? (l : List Nat) (i v : Nat) (h : l[i]? = some v) : l.getD i 0 = v := by
  rw [List.getD_eq_getElem?_getD, h]; rfl

/-- The forward branch, for a byte count `p` between 1 and the buffer length, is
a rotation of the buffer by `p` bytes toward index 0. -/
theorem shiftForward_spec (l : List Nat) (p : Nat) (hp1 : 1 ≤ p) (hpN : p ≤ l.length)
    (hb : ∀ x ∈ l, x < 256) :
    ∃ l2, shiftForward l (l.length : Int) (p : Int) = .ok l2 ∧ l2.length = l.length ∧
      ∀ k, k < l.length →
        l2[k]? = if k + p < l.length then l[k + p]? else l[k + p - l.length]? := by
  obtain ⟨t1, hr1, hl1, hp1'⟩ := forLoop_saveBody l 0 p 0 (List.replicate p 0) (by omega)
    (by simp)
  obtain ⟨l1, hr2, hl2, hp2⟩ := forLoop_shiftBody_up t1 p (l.length - p) 0 l (by omega) hp1
  obtain ⟨l2, hr3, hl3, hp3⟩ := forLoop_restoreBody t1 (l.length - p) p 0 l1 (by omega)
    (by simp at hl1; omega)
  refine ⟨l2, ?_, by omega, fun k hk => ?_⟩
  · unfold shiftForward
    have e1 : ((p : Int)).toNat = p := by omega
    have e2 : ((l.length : Int) - (p : Int)).toNat = l.length - p := by omega
    have e3 : ((l.length : Int) - (p : Int)) = ((l.length - p : Nat) : Int) := by omega
    simp only [Nat.cast_zero] at hr1 hr2 hr3
    simp only [e1, e2]
    rw [e3]
    simp only [bind, Except.bind, hr1, hr2, hr3]
    rfl
  · rw [hp3, hp2]
    by_cases h : k + p < l.length
    · rw [if_neg (by omega), if_pos (by omega), if_pos h, getElem?_of_lt l _ h,
        Nat.mod_eq_of_lt (getD_lt_of_bytes l hb _)]
    · rw [if_pos (by omega), if_neg h]
      have ht : t1[k - (l.length - p)]? = some (l.getD (0 + (k - (l.length - p))) 0) := by
        rw [hp1', if_pos (by omega)]
      rw [getD_of_getElem? _ _ _ ht, Nat.mod_eq_of_lt (getD_lt_of_bytes l hb _),
        getElem?_of_lt l _ (by omega)]
      congr 2
      omega

/-- The forward branch with a byte count above the buffer length reads past the
buffer in its first loop. -/
theorem shiftForward_fault (l : List Nat) (p : Nat) (hpN : l.length < p) :
    shiftForward l (l.length : Int) (p : Int) = .error .outOfBounds := by
  have h := forLoop_saveBody_fault l 0 p 0 (List.replicate p 0) (by omega) (by omega) (by simp)
  unfold shiftForward
  have e1 : ((p : Int)).toNat = p := by omega
  simp only [Nat.cast_zero] at h
  simp only [e1]
  simp only [bind, Except.bind, h]

/-- The backward branch, for a byte count `p` with `1 ≤ p < length`: bytes move up
by `p`, the last `p` bytes wrap to the start, and the byte at index `p` is left as
it was (the shift loop stops at `i > pos`). -/
theorem shiftBackward_spec (l : List Nat) (p : Nat) (hp1 : 1 ≤ p) (hpN : p < l.length)
    (hb : ∀ x ∈ l, x < 256) :
    ∃ l2, shiftBackward l (l.length : Int) (p : Int) = .ok l2 ∧ l2.length = l.length ∧
      ∀ k, k < l.length →
        l2[k]? = if k < p then l[l.length - p + k]? else if k = p then l[p]?
          else l[k - p]? := by
  obtain ⟨t1, hr1, hl1, hp1'⟩ := forLoop_saveBody l (l.length - p) p 0 (List.replicate p 0)
    (by omega) (by simp)
  obtain ⟨l1, hr2, hl2, hp2⟩ := forLoop_shiftBody_down t1 p (l.length - 1 - p) p l (by omega)
    (by omega)
  obtain ⟨l2, hr3, hl3, hp3⟩ := forLoop_restoreBody t1 0 p 0 l1 (by omega)
    (by simp at hl1; omega)
  refine ⟨l2, ?_, by omega, fun k hk => ?_⟩
  · unfold shiftBackward
    have e1 : ((p : Int)).toNat = p := by omega
    have e2 : ((l.length : Int) - 1 - (p : Int)).toNat = l.length - 1 - p := by omega
    have e3 : ((l.length : Int) - (p : Int)) = ((l.length - p : Nat) : Int) := by omega
    have e4 : ((l.length : Int) - 1) = ((p + (l.length - 1 - p) : Nat) : Int) := by omega
    simp only [Nat.cast_zero] at hr1 hr2 hr3
    simp only [e1, e2]
    rw [e3, e4]
    simp only [bind, Except.bind, hr1, hr2, hr3]
    rfl
  · rw [hp3, hp2]
    by_cases h : k < p
    · rw [if_pos (by omega), if_pos h]
      have ht : t1[k - 0]? = some (l.getD (l.length - p + (k - 0)) 0) := by
        rw [hp1', if_pos (by omega)]
      rw [getD_of_getElem? _ _ _ ht, Nat.mod_eq_of_lt (getD_lt_of_bytes l hb _),
        getElem?_of_lt l _ (by omega)]
      congr 2
    · rw [if_neg (by omega), if_neg h]
      by_cases h2 : k = p
      · rw [if_neg (by omega), if_pos h2, h2]
      · rw [if_pos (by omega), if_neg h2, Nat.mod_eq_of_lt (getD_lt_of_bytes l hb _),
          getElem?_of_lt l _ (by omega)]

/-! ## rotate: which branch runs -/

theorem rotate_forward_case (s : apa102Object) (k : Int) (q : Nat)
    (h : Int.tmod k s.num_led = q) (hq1 : 1 ≤ q) (hq2 : q ≤ s.num_led / 2) :
    apa102_rotate s k = (shiftForward s.leds s.num_led_array ((4 * q : Nat) : Int) >>=
      fun l => pure { s with leds := l }) := by
  have hn : s.num_led ≠ 0 := by omega
  have h0 : ¬ ((q : Int) = 0) := by omega
  have h1 : ¬ ((q : Int) < 0) := by omega
  have h2 : ¬ (((q : Int).natAbs : Int) > (s.num_led : Int) / 2) := by omega
  have e : ((q : Int).natAbs : Int) * ((BYTES_PER_LED : Nat) : Int) = ((4 * q : Nat) : Int) := by
    simp only [BYTES_PER_LED]; omega
  unfold apa102_rotate
  rw [if_neg hn]
  simp only [h, h0, h1, h2, if_false, decide_False, Bool.false_eq_true, e]
  rfl

theorem rotate_flip_pos_case (s : apa102Object) (k : Int) (q : Nat)
    (h : Int.tmod k s.num_led = q) (hq1 : s.num_led / 2 < q) (hq2 : q < s.num_led) :
    apa102_rotate s k = (shiftBackward s.leds s.num_led_array
      ((4 * (s.num_led - q) : Nat) : Int) >>= fun l => pure { s with leds := l }) := by
  have hn : s.num_led ≠ 0 := by omega
  have h0 : ¬ ((q : Int) = 0) := by omega
  have h1 : ¬ ((q : Int) < 0) := by omega
  have h2 : (((q : Int).natAbs : Int) > (s.num_led : Int) / 2) := by omega
  have e : ((s.num_led : Int) - (q : Int)) * ((BYTES_PER_LED : Nat) : Int)
      = ((4 * (s.num_led - q) : Nat) : Int) := by
    simp only [BYTES_PER_LED]; omega
  unfold apa102_rotate
  rw [if_neg hn]
  simp only [h, h0, h1, h2, if_false, if_true, decide_True, e]
  rfl

theorem rotate_backward_case (s : apa102Object) (k : Int) (q : Nat)
    (h : Int.tmod k s.num_led = -(q : Int)) (hq1 : 1 ≤ q) (hq2 : q ≤ s.num_led / 2) :
    apa102_rotate s k = (shiftBackward s.leds s.num_led_array ((4 * q : Nat) : Int) >>=
      fun l => pure { s with leds := l }) := by
  have hn : s.num_led ≠ 0 := by omega
  have h0 : ¬ (-(q : Int) = 0) := by omega
  have h1 : (-(q : Int) < 0) := by omega
  have h2 : ¬ (((-(q : Int)).natAbs : Int) > (s.num_led : Int) / 2) := by omega
  have e : ((-(q : Int)).natAbs : Int) * ((BYTES_PER_LED : Nat) : Int) = ((4 * q : Nat) : Int) := by
    simp only [BYTES_PER_LED]; omega
  unfold apa102_rotate
  rw [if_neg hn]
  simp only [h, h0, h1, h2, if_false, if_true, decide_False, Bool.false_eq_true, e]
  rfl

theorem rotate_flip_neg_case (s : apa102Object) (k : Int) (q : Nat)
    (h : Int.tmod k s.num_led = -(q : Int)) (hq1 : s.num_led / 2 < q) (hn : s.num_led ≠ 0) :
    apa102_rotate s k = (shiftForward s.leds s.num_led_array
      ((4 * (s.num_led + q) : Nat) : Int) >>= fun l => pure { s with leds := l }) := by
  have h0 : ¬ (-(q : Int) = 0) := by omega
  have h1 : (-(q : Int) < 0) := by omega
  have h2 : (((-(q : Int)).natAbs : Int) > (s.num_led : Int) / 2) := by omega
  have e : ((s.num_led : Int) - -(q : Int)) * ((BYTES_PER_LED : Nat) : Int)
      = ((4 * (s.num_led + q) : Nat) : Int) := by
    simp only [BYTES_PER_LED]; omega
  unfold apa102_rotate
  rw [if_neg hn]
  simp only [h, h0, h1, h2, if_false, if_true, decide_True, e]
  rfl

theorem rotate_zero_case (s : apa102Object) (k : Int) (hn : s.num_led ≠ 0)
    (h : Int.tmod k s.num_led = 0) : apa102_rotate s k = .ok s := by
  unfold apa102_rotate
  rw [if_neg hn]
  simp only [h, if_true]
  rfl

/-- On a strip of one pixel `rotate` returns at once for every argument and
changes nothing. -/
theorem rotate_single_pixel_noop (s : apa102Object) (h : s.num_led = 1) (k : Int) :
    apa102_rotate s k = .ok s := by
  apply rotate_zero_case s k (by omega)
  rw [h]
  exact Int.tmod_one k

/-! ## The invariant of reachable states -/

theorem old_byte (s : apa102Object) (hs : WF s) (hm : MarkersOK s) (k : Nat)
    (hk : k < s.leds.length) :
    ∃ v, s.leds[k]? = some v ∧ v < 256 ∧ (k % 4 = 0 → v &&& 0xE0 = 0xE0) := by
  obtain ⟨hn, hl, _, _, hb⟩ := hs
  refine ⟨s.leds.getD k 0, getElem?_of_lt _ _ hk, getD_lt_of_bytes _ hb _, fun h4 => ?_⟩
  obtain ⟨v, hv, hbits⟩ := hm (k / 4) (by omega)
  have e : 4 * (k / 4) = k := by omega
  rw [e] at hv
  rw [getD_of_getElem? _ _ _ hv]
  exact hbits

theorem inv_of_pointwise (s : apa102Object) (hs : WF s) (m2 : List Nat)
    (hl : m2.length = s.leds.length)
    (hpt : ∀ k, k < m2.length →
      ∃ v, m2[k]? = some v ∧ v < 256 ∧ (k % 4 = 0 → v &&& 0xE0 = 0xE0)) :
    WF { s with leds := m2 } ∧ MarkersOK { s with leds := m2 } := by
  obtain ⟨hn, hlen, hc, hg, hb⟩ := hs
  refine ⟨⟨hn, by rw [← hlen]; exact hl, hc, hg, fun x hx => ?_⟩, fun i hi => ?_⟩
  · obtain ⟨k, hk⟩ := List.mem_iff_getElem?.mp hx
    have hklt : k < m2.length := by
      rcases Nat.lt_or_ge k m2.length with h | h
      · exact h
      · rw [List.getElem?_eq_none h] at hk; cases hk
    obtain ⟨v, hv, hv256, _⟩ := hpt k hklt
    have hk2 : m2[k]? = some x := hk
    rw [hv] at hk2
    cases hk2
    exact hv256
  · have hi2 : i < s.num_led := hi
    obtain ⟨v, hv, _, hbits⟩ := hpt (4 * i) (by omega)
    exact ⟨v, hv, hbits (by omega)⟩

theorem markerOfSpec_bits (br g : Nat) (hg : g ≤ 31) : markerOfSpec br g &&& 0xE0 = 0xE0 := by
  have hq := scaled_le br g
  unfold markerOfSpec
  exact (field_bits _ (by omega)).2.2

theorem inv_of_set_pointwise (s : apa102Object) (hs : WF s) (hm : MarkersOK s) (m2 : List Nat)
    (hl : m2.length = s.leds.length) (r g b br : Nat) (P : Nat → Prop) [DecidablePred P]
    (hp : ∀ k, m2[k]? = if P k
      then some (pixelByte s (brightByte s (clampBrightness br)) r g b (k % 4))
      else s.leds[k]?) :
    WF { s with leds := m2 } ∧ MarkersOK { s with leds := m2 } := by
  apply inv_of_pointwise s hs m2 hl
  intro k hk
  rw [hp]
  by_cases h : P k
  · rw [if_pos h]
    refine ⟨_, rfl, pixelByte_lt _ _ _ _ _ _, fun h4 => ?_⟩
    rw [pixelByte_marker s hs.2.2.1 _ r g b k h4, brightByte_eq_markerOfSpec s hs.2.2.2.1]
    exact markerOfSpec_bits _ _ hs.2.2.2.1
  · rw [if_neg h]
    exact old_byte s hs hm k (by omega)

/-- On a well-formed strip `set_pixel` returns normally for every argument and
keeps the strip well formed with all markers intact. -/
theorem set_pixel_inv (s : apa102Object) (hs : WF s) (hm : MarkersOK s) (led_num : Int)
    (r g b br : Nat) :
    ∃ s2, apa102_set_pixel s led_num r g b br = .ok s2 ∧ WF s2 ∧ MarkersOK s2 := by
  by_cases hg : led_num < (s.num_led : Int) ∧ led_num ≥ 0
  · obtain ⟨j, rfl⟩ := Int.eq_ofNat_of_zero_le hg.2
    obtain ⟨m2, hset, hl, hp⟩ := set_pixel_spec s hs j (by omega) r g b br
    exact ⟨_, hset, inv_of_set_pointwise s hs hm m2 hl r g b br _ hp⟩
  · refine ⟨s, ?_, hs, hm⟩
    unfold apa102_set_pixel
    rw [if_neg hg]; rfl

/-- On a well-formed strip `set_range` returns normally for every argument and
keeps the strip well formed with all markers intact. -/
theorem set_range_inv (s : apa102Object) (hs : WF s) (hm : MarkersOK s) (start stop : Int)
    (r g b br : Nat) :
    ∃ s2, apa102_set_range s start stop r g b br = .ok s2 ∧ WF s2 ∧ MarkersOK s2 := by
  by_cases hg : start < 0 ∨ stop ≥ (s.num_led : Int) ∨ start > stop
  · refine ⟨s, ?_, hs, hm⟩
    unfold apa102_set_range
    rw [if_pos hg]; rfl
  · obtain ⟨a, rfl⟩ := Int.eq_ofNat_of_zero_le (show 0 ≤ start by omega)
    obtain ⟨e, rfl⟩ := Int.eq_ofNat_of_zero_le (show 0 ≤ stop by omega)
    obtain ⟨m2, hset, hl, hp⟩ := set_range_spec s hs a e (by omega) (by omega) r g b br
    exact ⟨_, hset, inv_of_set_pointwise s hs hm m2 hl r g b br _ hp⟩

/-- On a well-formed strip `set_all` returns normally and keeps the strip well
formed with all markers intact. -/
theorem set_all_inv (s : apa102Object) (hs : WF s) (hm : MarkersOK s) (r g b br : Nat) :
    ∃ s2, apa102_set_all s r g b br = .ok s2 ∧ WF s2 ∧ MarkersOK s2 := by
  obtain ⟨m2, hset, hl, hp⟩ := set_all_spec s hs r g b br
  exact ⟨_, hset, inv_of_set_pointwise s hs hm m2 hl r g b br _ hp⟩

/-- On a well-formed strip `clear_strip` returns normally and keeps the strip well
formed with all markers intact. -/
theorem clear_strip_inv (s : apa102Object) (hs : WF s) (hm : MarkersOK s) :
    ∃ s2, apa102_clear_strip s = .ok s2 ∧ WF s2 ∧ MarkersOK s2 := by
  obtain ⟨m2, hclr, hl, hp⟩ := clear_strip_spec s hs
  refine ⟨_, hclr, inv_of_pointwise s hs m2 hl fun k hk => ?_⟩
  rw [hp]
  by_cases h : k % 4 ≠ 0 ∧ k < s.leds.length
  · rw [if_pos h]
    exact ⟨0, rfl, by decide, fun h4 => absurd h4 h.1⟩
  · rw [if_neg h]
    exact old_byte s hs hm k (by omega)

theorem tmod_cases (k : Int) (n : Nat) :
    ∃ q : Nat, (n ≠ 0 → q < n) ∧ (Int.tmod k n = q ∨ Int.tmod k n = -(q : Int)) := by
  cases k with
  | ofNat m => exact ⟨m % n, fun h => Nat.mod_lt _ (Nat.pos_of_ne_zero h), Or.inl rfl⟩
  | negSucc m => exact ⟨(m + 1) % n, fun h => Nat.mod_lt _ (Nat.pos_of_ne_zero h), Or.inr rfl⟩

theorem shiftForward_inv (s : apa102Object) (hs : WF s) (hm : MarkersOK s) (q : Nat)
    (hq1 : 1 ≤ q) (hq2 : q ≤ s.num_led) :
    ∃ l2, shiftForward s.leds s.num_led_array ((4 * q : Nat) : Int) = .ok l2 ∧
      WF { s with leds := l2 } ∧ MarkersOK { s with leds := l2 } := by
  obtain ⟨hn, hl, _, _, hb⟩ := id hs
  obtain ⟨l2, hrun, hl2, hp⟩ := shiftForward_spec s.leds (4 * q) (by omega) (by omega) hb
  rw [hl] at hrun
  refine ⟨l2, hrun, inv_of_pointwise s hs l2 hl2 fun k hk => ?_⟩
  rw [hp k (by omega)]
  split_ifs with h
  · obtain ⟨v, hv, h256, hbits⟩ := old_byte s hs hm (k + 4 * q) h
    exact ⟨v, hv, h256, fun h4 => hbits (by omega)⟩
  · obtain ⟨v, hv, h256, hbits⟩ := old_byte s hs hm (k + 4 * q - s.leds.length) (by omega)
    exact ⟨v, hv, h256, fun h4 => hbits (by omega)⟩

theorem shiftBackward_inv (s : apa102Object) (hs : WF s) (hm : MarkersOK s) (q : Nat)
    (hq1 : 1 ≤ q) (hq2 : q < s.num_led) :
    ∃ l2, shiftBackward s.leds s.num_led_array ((4 * q : Nat) : Int) = .ok l2 ∧
      WF { s with leds := l2 } ∧ MarkersOK { s with leds := l2 } := by
  obtain ⟨hn, hl, _, _, hb⟩ := id hs
  obtain ⟨l2, hrun, hl2, hp⟩ := shiftBackward_spec s.leds (4 * q) (by omega) (by omega) hb
  rw [hl] at hrun
  refine ⟨l2, hrun, inv_of_pointwise s hs l2 hl2 fun k hk => ?_⟩
  rw [hp k (by omega)]
  split_ifs with h h2
  · obtain ⟨v, hv, h256, hbits⟩ := old_byte s hs hm (s.leds.length - 4 * q + k) (by omega)
    exact ⟨v, hv, h256, fun h4 => hbits (by omega)⟩
  · obtain ⟨v, hv, h256, hbits⟩ := old_byte s hs hm (4 * q) (by omega)
    exact ⟨v, hv, h256, fun h4 => hbits (by omega)⟩
  · obtain ⟨v, hv, h256, hbits⟩ := old_byte s hs hm (k - 4 * q) (by omega)
    exact ⟨v, hv, h256, fun h4 => hbits (by omega)⟩

/-- What `rotate` does on a well-formed strip, for every argument: a modulo by
zero on an empty strip; a read past the buffer when the reduced amount is
negative with magnitude above `num_led / 2`; otherwise a normal return that keeps
the strip well formed with all markers intact. -/
theorem rotate_outcome (s : apa102Object) (hs : WF s) (hm : MarkersOK s) (k : Int) :
    (s.num_led = 0 → apa102_rotate s k = .error .divByZero) ∧
    (s.num_led ≠ 0 → Int.tmod k s.num_led < 0 →
      (s.num_led : Int) / 2 < -(Int.tmod k s.num_led) →
      apa102_rotate s k = .error .outOfBounds) ∧
    (s.num_led ≠ 0 →
      ¬ (Int.tmod k s.num_led < 0 ∧ (s.num_led : Int) / 2 < -(Int.tmod k s.num_led)) →
      ∃ s2, apa102_rotate s k = .ok s2 ∧ WF s2 ∧ MarkersOK s2) := by
  obtain ⟨q, hq, hcase⟩ := tmod_cases k s.num_led
  have hlen : s.leds.length = s.num_led_array := hs.2.1
  have hN : s.num_led_array = s.num_led * 4 := hs.1
  refine ⟨fun h0 => ?_, fun hn hneg hbig => ?_, fun hn hok => ?_⟩
  · unfold apa102_rotate
    rw [if_pos h0]
  · have hq' := hq hn
    rcases hcase with h | h
    · omega
    · rw [rotate_flip_neg_case s k q h (by omega) hn]
      have := shiftForward_fault s.leds (4 * (s.num_led + q)) (by omega)
      rw [hlen] at this
      rw [this]
      rfl
  · have hq' := hq hn
    by_cases hz : q = 0
    · refine ⟨s, rotate_zero_case s k hn ?_, hs, hm⟩
      rcases hcase with h | h <;> rw [h, hz] <;> rfl
    · rcases hcase with h | h
      · by_cases hhalf : q ≤ s.num_led / 2
        · obtain ⟨l2, hrun, hinv⟩ := shiftForward_inv s hs hm q (by omega) (by omega)
          refine ⟨_, ?_, hinv⟩
          rw [rotate_forward_case s k q h (by omega) hhalf, hrun]
          rfl
        · obtain ⟨l2, hrun, hinv⟩ := shiftBackward_inv s hs hm (s.num_led - q) (by omega)
            (by omega)
          refine ⟨_, ?_, hinv⟩
          rw [rotate_flip_pos_case s k q h (by omega) hq', hrun]
          rfl
      · have hhalf : q ≤ s.num_led / 2 := by omega
        obtain ⟨l2, hrun, hinv⟩ := shiftBackward_inv s hs hm q (by omega) (by omega)
        refine ⟨_, ?_, hinv⟩
        rw [rotate_backward_case s k q h (by omega) hhalf, hrun]
        rfl

/-- Every reachable object state is well formed and has the top three bits of
every marker byte set. -/
theorem reachable_inv (s : apa102Object) (h : Reachable s) : WF s ∧ MarkersOK s := by
  induction h with
  | init n sw gb order => exact ⟨init_WF n sw gb order, init_MarkersOK n sw gb order⟩
  | set_pixel led_num r g b br _ hrun ih =>
    obtain ⟨s3, h3, hinv⟩ := set_pixel_inv _ ih.1 ih.2 led_num r g b br
    rw [hrun] at h3; cases h3; exact hinv
  | set_pixel_rgb led_num rgb br _ hrun ih =>
    rw [set_pixel_rgb_eq] at hrun
    obtain ⟨s3, h3, hinv⟩ := set_pixel_inv _ ih.1 ih.2 led_num _ _ _ br
    rw [hrun] at h3; cases h3; exact hinv
  | set_range start stop r g b br _ hrun ih =>
    obtain ⟨s3, h3, hinv⟩ := set_range_inv _ ih.1 ih.2 start stop r g b br
    rw [hrun] at h3; cases h3; exact hinv
  | set_range_rgb start stop rgb br _ hrun ih =>
    rw [set_range_rgb_eq] at hrun
    obtain ⟨s3, h3, hinv⟩ := set_range_inv _ ih.1 ih.2 start stop _ _ _ br
    rw [hrun] at h3; cases h3; exact hinv
  | set_all r g b br _ hrun ih =>
    obtain ⟨s3, h3, hinv⟩ := set_all_inv _ ih.1 ih.2 r g b br
    rw [hrun] at h3; cases h3; exact hinv
  | set_all_rgb rgb br _ hrun ih =>
    rw [set_all_rgb_eq] at hrun
    obtain ⟨s3, h3, hinv⟩ := set_all_inv _ ih.1 ih.2 _ _ _ br
    rw [hrun] at h3; cases h3; exact hinv
  | clear_strip _ hrun ih =>
    obtain ⟨s3, h3, hinv⟩ := clear_strip_inv _ ih.1 ih.2
    rw [hrun] at h3; cases h3; exact hinv
  | @rotate s1 s2 positions _ hrun ih =>
    obtain ⟨h0, _, hok⟩ := rotate_outcome s1 ih.1 ih.2 positions
    by_cases hn : s1.num_led = 0
    · rw [h0 hn] at hrun; cases hrun
    · by_cases hbad : Int.tmod positions s1.num_led < 0 ∧
          (s1.num_led : Int) / 2 < -(Int.tmod positions s1.num_led)
      · rw [(rotate_outcome s1 ih.1 ih.2 positions).2.1 hn hbad.1 hbad.2] at hrun
        cases hrun
      · obtain ⟨s3, h3, hinv⟩ := hok hn hbad
        rw [hrun] at h3; cases h3; exact hinv

/-! ## Packed colours -/

theorem ldiff_255 (m : Nat) : Nat.ldiff 255 m = 255 - m % 256 := by
  apply Nat.eq_of_testBit_eq
  intro k
  have e1 : 255 - m % 256 = 2 ^ 8 - (m % 2 ^ 8 + 1) := by norm_num; omega
  have e2 : (255 : Nat) = 2 ^ 8 - 1 := by norm_num
  rw [Nat.testBit_ldiff, e1, Nat.testBit_two_pow_sub_succ (Nat.mod_lt _ (by norm_num)), e2,
    Nat.testBit_two_pow_sub_one, Nat.testBit_mod_two_pow]
  cases decide (k < 8) <;> cases m.testBit k <;> rfl

theorem land_255 (x : Int) : Int.land x 255 = x % 256 := by
  cases x with
  | ofNat m =>
    show ((m &&& 255 : Nat) : Int) = (m : Int) % 256
    have := Nat.and_pow_two_sub_one_eq_mod m 8
    norm_num at this
    rw [this]
    norm_cast
  | negSucc m =>
    show ((Nat.ldiff 255 m : Nat) : Int) = Int.negSucc m % 256
    rw [ldiff_255, Int.negSucc_eq]
    omega

theorem channelOf_eq_decodeSpec (rgb : Int) (shift : Nat) :
    channelOf rgb shift = (decodeSpec rgb shift).toNat := by
  unfold channelOf decodeSpec
  rw [land_255]

theorem decodeSpec_range (rgb : Int) (shift : Nat) :
    0 ≤ decodeSpec rgb shift ∧ decodeSpec rgb shift ≤ 255 := by
  unfold decodeSpec
  rw [land_255]
  omega

theorem combine_color_sum (r g b : Nat) (hg : g < 256) (hb : b < 256) :
    apa102_combine_color r g b = r * 65536 + g * 256 + b := by
  unfold apa102_combine_color
  rw [Nat.shiftLeft_eq, Nat.shiftLeft_eq]
  have h1 : 2 ^ 8 * g + b = 2 ^ 8 * g ||| b := Nat.mul_add_lt_is_or (by norm_num; exact hb) g
  have h2 : 2 ^ 16 * r + (g * 256 + b) = 2 ^ 16 * r ||| (g * 256 + b) :=
    Nat.mul_add_lt_is_or (by norm_num; omega) r
  have h3 : g * 2 ^ 8 ||| b = g * 256 + b := by
    rw [Nat.mul_comm g, ← h1]; norm_num; omega
  rw [Nat.lor_assoc, h3, Nat.mul_comm r, ← h2]
  norm_num
  omega

theorem channelOf_nat (v shift : Nat) :
    channelOf (v : Int) shift = v / 2 ^ shift % 256 := by
  unfold channelOf
  rw [Int.shiftRight_eq_div_pow]
  have : ((v : Int) / ((2 ^ shift : Nat) : Int)) % 256 = ((v / 2 ^ shift % 256 : Nat) : Int) := by
    norm_cast
  rw [this]
  exact Int.toNat_ofNat _

/-! ## Reading back what a set operation wrote -/

theorem markerOfSpec_unmasked (br g : Nat) (hg : g ≤ 31) :
    markerOfSpec br g = 0xE0 ||| (min br 31 * g / 31) := by
  have hq := scaled_le br g
  unfold markerOfSpec
  have h := Nat.and_pow_two_sub_one_eq_mod (min br 31 * g / 31) 5
  norm_num at h
  rw [h, Nat.mod_eq_of_lt (by omega)]

theorem read_back_of_pointwise (s : apa102Object) (hs : WF s) (m2 : List Nat)
    (bright r g b : Nat) (hr : r < 256) (hg : g < 256) (hb : b < 256) (i : Nat)
    (hi : i < s.num_led)
    (hp : ∀ k, 4 * i ≤ k → k < 4 * i + 4 →
      m2[k]? = some (pixelByte s bright r g b (k % 4))) :
    apa102_get_pixel_color { s with leds := m2 } (i : Int) = .ok (some (r, g, b)) ∧
      m2[4 * i]? = some (bright % 256) := by
  have hc : ChannelsOK s := hs.2.2.1
  obtain ⟨⟨hR1, hR3⟩, ⟨hG1, hG3⟩, ⟨hB1, hB3⟩, _⟩ := id hc
  refine ⟨get_pixel_color_of_bytes { s with leds := m2 } i (Nat.le_of_lt hi) r g b ?_ ?_ ?_, ?_⟩
  · show m2[4 * i + s.rgb_RED]? = some r
    rw [hp _ (by omega) (by omega), pixelByte_red s hc, Nat.mod_eq_of_lt hr]
  · show m2[4 * i + s.rgb_GRN]? = some g
    rw [hp _ (by omega) (by omega), pixelByte_grn s hc, Nat.mod_eq_of_lt hg]
  · show m2[4 * i + s.rgb_BLU]? = some b
    rw [hp _ (by omega) (by omega), pixelByte_blu s hc, Nat.mod_eq_of_lt hb]
  · rw [hp _ (by omega) (by omega), pixelByte_marker s hc _ r g b (4 * i) (by omega)]

theorem set_range_noop_of_guard (s : apa102Object) (start stop : Int)
    (h : start < 0 ∨ stop ≥ (s.num_led : Int) ∨ start > stop) (r g b br : Nat) :
    apa102_set_range s start stop r g b br = .ok s := by
  unfold apa102_set_range
  rw [if_pos h]; rfl

theorem set_range_last_pixel (s : apa102Object) (hs : WF s) (start stop : Int)
    (r g b br : Nat) :
    ∃ s2, apa102_set_range s start stop r g b br = .ok s2 ∧
      s2.leds.length = s.leds.length ∧
      ∀ off, off < 4 → s2.leds[4 * (s.num_led - 1) + off]? = s.leds[4 * (s.num_led - 1) + off]? := by
  by_cases hg : start < 0 ∨ stop ≥ (s.num_led : Int) ∨ start > stop
  · exact ⟨s, set_range_noop_of_guard s start stop hg r g b br, rfl, fun _ _ => rfl⟩
  · obtain ⟨a, rfl⟩ := Int.eq_ofNat_of_zero_le (show 0 ≤ start by omega)
    obtain ⟨e, rfl⟩ := Int.eq_ofNat_of_zero_le (show 0 ≤ stop by omega)
    obtain ⟨m2, hset, hl, hp⟩ := set_range_spec s hs a e (by omega) (by omega) r g b br
    refine ⟨_, hset, hl, fun off hoff => ?_⟩
    show m2[_]? = _
    rw [hp, if_neg (by omega)]

/-! ## The order string -/

theorem letters_disjoint (c : Char) :
    ((c = 'r' ∨ c = 'R') → ¬ (c = 'g' ∨ c = 'G') ∧ ¬ (c = 'b' ∨ c = 'B')) ∧
    ((c = 'g' ∨ c = 'G') → ¬ (c = 'b' ∨ c = 'B')) := by
  refine ⟨?_, ?_⟩ <;> rintro (rfl | rfl) <;> decide

theorem countLetter_cons (c : Char) (l : List Char) (lo up : Char) :
    countLetter (c :: l) lo up = countLetter l lo up + if c = lo ∨ c = up then 1 else 0 := by
  unfold countLetter
  rw [List.countP_cons]
  simp

theorem scanOrder_counts (o : List Char) (hnul : NULL_CHAR ∉ o) :
    ∀ (left i : Nat) (st : OrderScan),
      (scanOrder o left i st).r_count = st.r_count + countLetter ((o.drop i).take left) 'r' 'R' ∧
      (scanOrder o left i st).g_count = st.g_count + countLetter ((o.drop i).take left) 'g' 'G' ∧
      (scanOrder o left i st).b_count = st.b_count + countLetter ((o.drop i).take left) 'b' 'B' := by
  intro left
  induction left with
  | zero => intro i st; simp [scanOrder, countLetter]
  | succ l ih =>
    intro i st
    rcases Nat.lt_or_ge i o.length with hi | hi
    · have hdrop : (o.drop i).take (l + 1) = o[i] :: (o.drop (i + 1)).take l := by
        rw [List.drop_eq_getElem_cons hi, List.take_succ_cons]
      have hget : o.getD i (Char.ofNat 0) = o[i] := by
        rw [List.getD_eq_getElem?_getD, List.getElem?_eq_getElem hi]; rfl
      have hmem : o[i] ≠ Char.ofNat 0 := by
        intro h
        apply hnul
        have : o[i] ∈ o := List.getElem_mem hi
        rw [h] at this
        exact this
      rw [hdrop, countLetter_cons, countLetter_cons, countLetter_cons]
      unfold scanOrder
      dsimp only
      rw [hget]
      generalize o[i] = c at hmem
      obtain ⟨hd1, hd2⟩ := letters_disjoint c
      by_cases hR : c = 'r' ∨ c = 'R'
      · obtain ⟨h1, h2, h3⟩ := ih (i + 1) { st with rgb_RED := 3 - i, r_count := st.r_count + 1 }
        rw [if_pos hR, h1, h2, h3, if_pos hR, if_neg (hd1 hR).1, if_neg (hd1 hR).2]
        dsimp only
        omega
      · by_cases hG : c = 'g' ∨ c = 'G'
        · obtain ⟨h1, h2, h3⟩ :=
            ih (i + 1) { st with rgb_GRN := 3 - i, g_count := st.g_count + 1 }
          rw [if_neg hR, if_pos hG, h1, h2, h3, if_neg hR, if_pos hG, if_neg (hd2 hG)]
          dsimp only
          omega
        · by_cases hB : c = 'b' ∨ c = 'B'
          · obtain ⟨h1, h2, h3⟩ :=
              ih (i + 1) { st with rgb_BLU := 3 - i, b_count := st.b_count + 1 }
            rw [if_neg hR, if_neg hG, if_pos hB, h1, h2, h3, if_neg hR, if_neg hG, if_pos hB]
            dsimp only
            omega
          · obtain ⟨h1, h2, h3⟩ := ih (i + 1) st
            rw [if_neg hR, if_neg hG, if_neg hB, if_neg hmem, h1, h2, h3, if_neg hR, if_neg hG,
              if_neg hB]
            omega
    · have hget : o.getD i (Char.ofNat 0) = Char.ofNat 0 := by
        rw [List.getD_eq_getElem?_getD, List.getElem?_eq_none hi]; rfl
      have hdrop : (o.drop i).take (l + 1) = [] := by
        rw [List.drop_eq_nil_of_le hi]; rfl
      rw [hdrop]
      unfold scanOrder
      dsimp only
      rw [hget, if_neg (by decide), if_neg (by decide), if_neg (by decide), if_pos rfl]
      simp [countLetter]

theorem scanOrder_letters (o : List Char) : ∀ (left i : Nat) (st : OrderScan),
    i + left ≤ 3 → ScanLetters o st → ScanLetters o (scanOrder o left i st) := by
  intro left
  induction left with
  | zero => intro i st _ h; exact h
  | succ l ih =>
    intro i st hi h
    obtain ⟨hr, hg, hb⟩ := h
    have e : 3 - (3 - i) = i := by omega
    unfold scanOrder
    dsimp only
    split_ifs with h1 h2 h3 h4
    · apply ih (i + 1) _ (by omega)
      refine ⟨fun _ => ⟨by dsimp only; omega, ?_⟩, hg, hb⟩
      dsimp only
      rw [e]
      exact h1
    · apply ih (i + 1) _ (by omega)
      refine ⟨hr, fun _ => ⟨by dsimp only; omega, ?_⟩, hb⟩
      dsimp only
      rw [e]
      exact h2
    · apply ih (i + 1) _ (by omega)
      refine ⟨hr, hg, fun _ => ⟨by dsimp only; omega, ?_⟩⟩
      dsimp only
      rw [e]
      exact h3
    · exact ⟨hr, hg, hb⟩
    · exact ih (i + 1) st (by omega) ⟨hr, hg, hb⟩

theorem init_rgb_none (num_led : Nat) (spi_write : Bool) (global_brightness : Option Nat) :
    (apa102_init num_led spi_write global_brightness none).rgb_RED = 3 ∧
    (apa102_init num_led spi_write global_brightness none).rgb_GRN = 2 ∧
    (apa102_init num_led spi_write global_brightness none).rgb_BLU = 1 :=
  ⟨rfl, rfl, rfl⟩

theorem init_rgb_default (num_led : Nat) (spi_write : Bool) (global_brightness : Option Nat)
    (o : List Char)
    (h : ¬ ((scanOrder o 3 0 ⟨0, 0, 0, 0, 0, 0⟩).r_count = 1 ∧
      (scanOrder o 3 0 ⟨0, 0, 0, 0, 0, 0⟩).g_count = 1 ∧
      (scanOrder o 3 0 ⟨0, 0, 0, 0, 0, 0⟩).b_count = 1)) :
    (apa102_init num_led spi_write global_brightness (some o)).rgb_RED = 3 ∧
    (apa102_init num_led spi_write global_brightness (some o)).rgb_GRN = 2 ∧
    (apa102_init num_led spi_write global_brightness (some o)).rgb_BLU = 1 := by
  unfold apa102_init
  simp [h]

theorem init_rgb_accept (num_led : Nat) (spi_write : Bool) (global_brightness : Option Nat)
    (o : List Char)
    (h : (scanOrder o 3 0 ⟨0, 0, 0, 0, 0, 0⟩).r_count = 1 ∧
      (scanOrder o 3 0 ⟨0, 0, 0, 0, 0, 0⟩).g_count = 1 ∧
      (scanOrder o 3 0 ⟨0, 0, 0, 0, 0, 0⟩).b_count = 1) :
    (apa102_init num_led spi_write global_brightness (some o)).rgb_RED
        = (scanOrder o 3 0 ⟨0, 0, 0, 0, 0, 0⟩).rgb_RED ∧
    (apa102_init num_led spi_write global_brightness (some o)).rgb_GRN
        = (scanOrder o 3 0 ⟨0, 0, 0, 0, 0, 0⟩).rgb_GRN ∧
    (apa102_init num_led spi_write global_brightness (some o)).rgb_BLU
        = (scanOrder o 3 0 ⟨0, 0, 0, 0, 0, 0⟩).rgb_BLU := by
  unfold apa102_init
  simp only [h, and_self, decide_True, Bool.not_true, Bool.false_eq_true, if_false]

theorem scan_accept_iff (o : List Char) (hnul : NULL_CHAR ∉ o) :
    ((scanOrder o 3 0 ⟨0, 0, 0, 0, 0, 0⟩).r_count = 1 ∧
      (scanOrder o 3 0 ⟨0, 0, 0, 0, 0, 0⟩).g_count = 1 ∧
      (scanOrder o 3 0 ⟨0, 0, 0, 0, 0, 0⟩).b_count = 1) ↔ eachOnce (o.take 3) := by
  obtain ⟨h1, h2, h3⟩ := scanOrder_counts o hnul 3 0 ⟨0, 0, 0, 0, 0, 0⟩
  rw [h1, h2, h3]
  unfold eachOnce
  simp

/-! ## Queries at and beyond the end of the strip -/

/-- For an index below 0 or above the pixel count the three queries return
`None` without touching the buffer. -/
theorem getters_none_outside (s : apa102Object) (i : Int)
    (h : i < 0 ∨ i > (s.num_led : Int)) :
    apa102_get_pixel_color_str s i = .ok none ∧ apa102_get_pixel_color_rgb s i = .ok none ∧
      apa102_get_pixel_color s i = .ok none := by
  refine ⟨?_, ?_, ?_⟩
  · unfold apa102_get_pixel_color_str; rw [if_pos h]; rfl
  · unfold apa102_get_pixel_color_rgb; rw [if_pos h]; rfl
  · unfold apa102_get_pixel_color; rw [if_pos h]; rfl

theorem rd_past_end (s : apa102Object) (hs : WF s) (off : Nat) :
    rd s.leds ((s.num_led : Int) * ((BYTES_PER_LED : Nat) : Int) + (off : Int))
      = .error .outOfBounds := by
  obtain ⟨hn, hl, _⟩ := hs
  unfold rd
  rw [if_neg]
  simp only [BYTES_PER_LED]
  omega

/-- For the index equal to the pixel count the guard `led_num > num_led` lets
the three queries through and their first read is past the buffer. -/
theorem getters_fault_at_pixel_count (s : apa102Object) (hs : WF s) :
    apa102_get_pixel_color_str s (s.num_led : Int) = .error .outOfBounds ∧
      apa102_get_pixel_color_rgb s (s.num_led : Int) = .error .outOfBounds ∧
      apa102_get_pixel_color s (s.num_led : Int) = .error .outOfBounds := by
  have hg : ¬ ((s.num_led : Int) < 0 ∨ (s.num_led : Int) > (s.num_led : Int)) := by omega
  refine ⟨?_, ?_, ?_⟩
  · unfold apa102_get_pixel_color_str
    rw [if_neg hg]
    have e : BYTES_PER_LED - 1 = 2 + 1 := rfl
    dsimp only
    rw [e, forLoop_succ]
    unfold hexBody
    rw [rd_past_end s hs]
    rfl
  · unfold apa102_get_pixel_color_rgb
    rw [if_neg hg, rd_past_end s hs]
    rfl
  · unfold apa102_get_pixel_color
    rw [if_neg hg, rd_past_end s hs]
    rfl

/-! ## The hexadecimal string query -/

theorem hex_table : ∀ d, d < 16 →
    HEX_CHARS.getD d NULL_CHAR = upperHexDigit d ∧ upperHexDigit d ≠ NULL_CHAR := by
  decide

theorem forLoop_step_ok {σ : Type} (body : Int → σ → Except Fault σ) (step : Int) (cnt : Nat)
    (i : Int) (st st1 : σ) (h : body i st = .ok st1) :
    forLoop body step (cnt + 1) i st = forLoop body step cnt (i + step) st1 := by
  rw [forLoop_succ, h]; rfl

theorem hexBody_eval (s : apa102Object) (base jn v : Nat) (str : List Char)
    (hv : s.leds[base + rgbAt s (jn : Int)]? = some v) (hlt : v < 256) :
    hexBody s (base : Int) (jn : Int) str
      = .ok ((str.set (2 * jn + 2) (upperHexDigit (v % 16))).set (2 * jn + 1)
          (upperHexDigit (v / 16))) := by
  have e : (base : Int) + (rgbAt s (jn : Int) : Int)
      = ((base + rgbAt s (jn : Int) : Nat) : Int) := by push_cast; rfl
  have e1 : ((jn : Int) * 2 + 2).toNat = 2 * jn + 2 := by omega
  have e2 : ((jn : Int) * 2 + 1).toNat = 2 * jn + 1 := by omega
  have b1 : v &&& 15 = v % 16 := by
    have := Nat.and_pow_two_sub_one_eq_mod v 4
    norm_num at this
    exact this
  have b2 : (v >>> 4) &&& 15 = v / 16 := by
    have := Nat.and_pow_two_sub_one_eq_mod (v >>> 4) 4
    norm_num at this
    rw [this, Nat.shiftRight_eq_div_pow]
    norm_num
    omega
  unfold hexBody
  rw [e, rd_nat_of_getElem? _ _ _ hv]
  simp only [bind, Except.bind, pure, Except.pure, e1, e2, b1, b2]
  rw [(hex_table (v % 16) (by omega)).1, (hex_table (v / 16) (by omega)).1]

theorem takeWhile_hex (c1 c2 c3 c4 c5 c6 : Char) (h1 : c1 ≠ NULL_CHAR) (h2 : c2 ≠ NULL_CHAR)
    (h3 : c3 ≠ NULL_CHAR) (h4 : c4 ≠ NULL_CHAR) (h5 : c5 ≠ NULL_CHAR) (h6 : c6 ≠ NULL_CHAR) :
    [NUMBER_SIGN, c1, c2, c3, c4, c5, c6, NULL_CHAR].takeWhile (fun c => c ≠ NULL_CHAR)
      = ['#', c1, c2, c3, c4, c5, c6] := by
  have h0 : ('#' : Char) ≠ NULL_CHAR := by decide
  simp [List.takeWhile, h0, h1, h2, h3, h4, h5, h6, NUMBER_SIGN]

theorem get_pixel_color_str_spec (s : apa102Object) (i : Nat)
    (hi : i < s.num_led) (r g b : Nat) (hr : s.leds[4 * i + s.rgb_RED]? = some r)
    (hg : s.leds[4 * i + s.rgb_GRN]? = some g) (hb : s.leds[4 * i + s.rgb_BLU]? = some b)
    (hr2 : r < 256) (hg2 : g < 256) (hb2 : b < 256) :
    apa102_get_pixel_color_str s (i : Int)
      = .ok (some ('#' :: (hexByteUpper r ++ hexByteUpper g ++ hexByteUpper b))) := by
  have hgd : ¬ ((i : Int) < 0 ∨ (i : Int) > (s.num_led : Int)) := by omega
  have e0 : (i : Int) * ((BYTES_PER_LED : Nat) : Int) = ((4 * i : Nat) : Int) := by
    push_cast; ring
  have e3 : BYTES_PER_LED - 1 = 0 + 1 + 1 + 1 := rfl
  have z0 : (0 : Int) = ((0 : Nat) : Int) := rfl
  have z1 : (0 : Int) + 1 = ((1 : Nat) : Int) := rfl
  have z2 : ((1 : Nat) : Int) + 1 = ((2 : Nat) : Int) := rfl
  unfold apa102_get_pixel_color_str
  rw [if_neg hgd]
  dsimp only
  rw [e0, e3]
  rw [forLoop_step_ok _ _ _ _ _ _ (by rw [z0]; exact hexBody_eval s (4 * i) 0 r _ hr hr2)]
  rw [z1, forLoop_step_ok _ _ _ _ _ _ (hexBody_eval s (4 * i) 1 g _ hg hg2)]
  rw [z2, forLoop_step_ok _ _ _ _ _ _ (hexBody_eval s (4 * i) 2 b _ hb hb2)]
  show Except.ok (some (List.takeWhile _ [NUMBER_SIGN, upperHexDigit (r / 16),
    upperHexDigit (r % 16), upperHexDigit (g / 16), upperHexDigit (g % 16),
    upperHexDigit (b / 16), upperHexDigit (b % 16), NULL_CHAR])) = _
  rw [takeWhile_hex _ _ _ _ _ _ (hex_table _ (by omega)).2 (hex_table _ (by omega)).2
    (hex_table _ (by omega)).2 (hex_table _ (by omega)).2 (hex_table _ (by omega)).2
    (hex_table _ (by omega)).2]
  rfl

theorem get_pixel_color_rgb_of_bytes (s : apa102Object) (j : Nat) (hj : j ≤ s.num_led)
    (vr vg vb : Nat) (hr : s.leds[4 * j + s.rgb_RED]? = some vr)
    (hg : s.leds[4 * j + s.rgb_GRN]? = some vg) (hb : s.leds[4 * j + s.rgb_BLU]? = some vb) :
    apa102_get_pixel_color_rgb s (j : Int) = .ok (some ((vr <<< 16) ||| (vg <<< 8) ||| vb)) := by
  unfold apa102_get_pixel_color_rgb
  have hgd : ¬ ((j : Int) < 0 ∨ (j : Int) > (s.num_led : Int)) := by omega
  have eR : (j : Int) * ((BYTES_PER_LED : Nat) : Int) + (s.rgb_RED : Int)
      = ((4 * j + s.rgb_RED : Nat) : Int) := by push_cast; ring
  have eG : (j : Int) * ((BYTES_PER_LED : Nat) : Int) + (s.rgb_GRN : Int)
      = ((4 * j + s.rgb_GRN : Nat) : Int) := by push_cast; ring
  have eB : (j : Int) * ((BYTES_PER_LED : Nat) : Int) + (s.rgb_BLU : Int)
      = ((4 * j + s.rgb_BLU : Nat) : Int) := by push_cast; ring
  rw [if_neg hgd, eR, eG, eB, rd_nat_of_getElem? _ _ _ hr, rd_nat_of_getElem? _ _ _ hg,
    rd_nat_of_getElem? _ _ _ hb]
  rfl

theorem hexUpper6_of_channels (r g b : Nat) (hr : r < 256) (hg : g < 256) (hb : b < 256) :
    hexUpper6 (r * 65536 + g * 256 + b) = hexByteUpper r ++ hexByteUpper g ++ hexByteUpper b := by
  unfold hexUpper6 hexByteUpper
  have d5 : (r * 65536 + g * 256 + b) / 16 ^ 5 % 16 = r / 16 := by norm_num; omega
  have d4 : (r * 65536 + g * 256 + b) / 16 ^ 4 % 16 = r % 16 := by norm_num; omega
  have d3 : (r * 65536 + g * 256 + b) / 16 ^ 3 % 16 = g / 16 := by norm_num; omega
  have d2 : (r * 65536 + g * 256 + b) / 16 ^ 2 % 16 = g % 16 := by norm_num; omega
  have d1 : (r * 65536 + g * 256 + b) / 16 % 16 = b / 16 := by omega
  have d0 : (r * 65536 + g * 256 + b) % 16 = b % 16 := by omega
  rw [d5, d4, d3, d2, d1, d0]
  rfl

/-! ## rotate: the shift it decides on -/

/-- With a non-zero reduced amount `rotate` runs the forward branch when the
planned direction is positive and the backward branch otherwise, with the planned
pixel count scaled to bytes. -/
theorem rotate_uses_plan (s : apa102Object) (k : Int) (hn : s.num_led ≠ 0)
    (hsp : Int.tmod k s.num_led ≠ 0) :
    apa102_rotate s k =
      if (rotatePlan s.num_led k).2 > 0 then
        (shiftForward s.leds s.num_led_array
          ((rotatePlan s.num_led k).1 * ((BYTES_PER_LED : Nat) : Int)) >>=
            fun l => pure { s with leds := l })
      else
        (shiftBackward s.leds s.num_led_array
          ((rotatePlan s.num_led k).1 * ((BYTES_PER_LED : Nat) : Int)) >>=
            fun l => pure { s with leds := l }) := by
  unfold apa102_rotate rotatePlan
  rw [if_neg hn]
  simp only [hsp, if_false]

theorem rotatePlan_pos (n : Nat) (k : Int) (q : Nat) (h : Int.tmod k n = q) (hq : 1 ≤ q)
    (hqn : q < n) :
    rotatePlan n k = (((min q (n - q) : Nat) : Int), if n / 2 < q then -1 else 1) := by
  have h1 : ¬ ((q : Int) < 0) := by omega
  unfold rotatePlan
  rw [h]
  by_cases hf : n / 2 < q
  · have h2 : (((q : Int).natAbs : Int) > (n : Int) / 2) := by omega
    simp only [h1, h2, if_false, if_true, decide_True, hf]
    refine Prod.ext ?_ ?_
    · show (n : Int) - (q : Int) = ((min q (n - q) : Nat) : Int)
      omega
    · rfl
  · have h2 : ¬ (((q : Int).natAbs : Int) > (n : Int) / 2) := by omega
    simp only [h1, h2, if_false, decide_False, Bool.false_eq_true, hf]
    refine Prod.ext ?_ ?_
    · show ((q : Int).natAbs : Int) = ((min q (n - q) : Nat) : Int)
      omega
    · rfl

theorem rotatePlan_neg_small (n : Nat) (k : Int) (q : Nat) (h : Int.tmod k n = -(q : Int))
    (hq : 1 ≤ q) (hqn : q ≤ n / 2) :
    rotatePlan n k = (((min q (n - q) : Nat) : Int), -1) := by
  have h1 : (-(q : Int) < 0) := by omega
  have h2 : ¬ (((-(q : Int)).natAbs : Int) > (n : Int) / 2) := by omega
  unfold rotatePlan
  rw [h]
  simp only [h1, h2, if_false, if_true, decide_False, Bool.false_eq_true]
  refine Prod.ext ?_ ?_
  · show ((-(q : Int)).natAbs : Int) = ((min q (n - q) : Nat) : Int)
    omega
  · rfl

theorem rotatePlan_neg_large (n : Nat) (k : Int) (q : Nat) (h : Int.tmod k n = -(q : Int))
    (hqn : n / 2 < q) :
    rotatePlan n k = (((n + q : Nat) : Int), 1) := by
  have h1 : (-(q : Int) < 0) := by omega
  have h2 : (((-(q : Int)).natAbs : Int) > (n : Int) / 2) := by omega
  unfold rotatePlan
  rw [h]
  simp only [h1, h2, if_true, decide_True]
  refine Prod.ext ?_ ?_
  · show (n : Int) - -(q : Int) = ((n + q : Nat) : Int)
    omega
  · rfl

/-- The shift `rotate` decides on, for every pixel count `n > 0` and every
argument, with `m` the magnitude of the reduced amount: for a positive reduced
amount the pixel count is `min(m, n - m)` and the direction is flipped exactly
when `m > n / 2`; for a negative one of magnitude at most `n / 2` the pixel count
is `m`, which is `min(m, n - m)`, and the direction is kept; for a negative one
of magnitude above `n / 2` the pixel count is `n + m`. -/
theorem rotatePlan_cases (n : Nat) (hn : 0 < n) (k : Int) :
    (0 < Int.tmod k n →
      (rotatePlan n k).1 = ((min (Int.tmod k n).natAbs (n - (Int.tmod k n).natAbs) : Nat) : Int) ∧
      ((rotatePlan n k).2 = -1 ↔ n / 2 < (Int.tmod k n).natAbs) ∧
      ((rotatePlan n k).2 = 1 ↔ ¬ n / 2 < (Int.tmod k n).natAbs)) ∧
    (Int.tmod k n < 0 → (Int.tmod k n).natAbs ≤ n / 2 →
      (rotatePlan n k).1 = ((min (Int.tmod k n).natAbs (n - (Int.tmod k n).natAbs) : Nat) : Int) ∧
      (rotatePlan n k).2 = -1) ∧
    (Int.tmod k n < 0 → n / 2 < (Int.tmod k n).natAbs →
      (rotatePlan n k).1 = ((n + (Int.tmod k n).natAbs : Nat) : Int) ∧
      (rotatePlan n k).2 = 1) := by
  obtain ⟨q, hq, hcase⟩ := tmod_cases k n
  have hqn := hq (by omega)
  refine ⟨fun hpos => ?_, fun hneg hsmall => ?_, fun hneg hlarge => ?_⟩
  · rcases hcase with h | h
    · have hq1 : 1 ≤ q := by omega
      have hab : (Int.tmod k n).natAbs = q := by omega
      rw [rotatePlan_pos n k q h hq1 hqn, hab]
      refine ⟨rfl, ?_, ?_⟩ <;> by_cases hf : n / 2 < q <;> simp [hf]
    · omega
  · rcases hcase with h | h
    · omega
    · have hab : (Int.tmod k n).natAbs = q := by omega
      rw [rotatePlan_neg_small n k q h (by omega) (by omega), hab]
      exact ⟨rfl, rfl⟩
  · rcases hcase with h | h
    · omega
    · have hab : (Int.tmod k n).natAbs = q := by omega
      rw [rotatePlan_neg_large n k q h (by omega), hab]
      exact ⟨rfl, rfl⟩

/-! ## rotate: where the colours go -/

theorem add_mod_cases (i k n : Nat) (hi : i < n) :
    (i + k) % n = if i + k % n < n then i + k % n else i + k % n - n := by
  have hq : k % n < n := Nat.mod_lt _ (by omega)
  have e : (i + k) % n = (i + k % n) % n := by
    rw [Nat.add_mod, Nat.mod_eq_of_lt hi]
  rw [e]
  split_ifs with h
  · exact Nat.mod_eq_of_lt h
  · rw [Nat.mod_eq_sub_mod (by omega)]
    exact Nat.mod_eq_of_lt (by omega)

/-- For a non-negative argument `k` on a well-formed strip of `n > 0` pixels
`rotate` returns normally and every colour byte (offsets 1..3) of pixel `i` is
afterwards the byte at the same offset of pixel `(i + k) mod n` before. -/
theorem rotate_colour_bytes (s : apa102Object) (hs : WF s) (hn : 0 < s.num_led) (k : Nat) :
    ∃ l2, apa102_rotate s (k : Int) = .ok { s with leds := l2 } ∧
      l2.length = s.leds.length ∧
      ∀ i, i < s.num_led → ∀ off, 1 ≤ off → off ≤ 3 →
        l2[4 * i + off]? = s.leds[4 * ((i + k) % s.num_led) + off]? := by
  obtain ⟨hN, hl, _, _, hb⟩ := id hs
  have hq : k % s.num_led < s.num_led := Nat.mod_lt _ hn
  have htmod : Int.tmod (k : Int) (s.num_led : Int) = ((k % s.num_led : Nat) : Int) :=
    (Int.ofNat_tmod k s.num_led).symm
  by_cases hz : k % s.num_led = 0
  · refine ⟨s.leds, ?_, rfl, fun i hi off _ _ => ?_⟩
    · rw [rotate_zero_case s k (by omega) (by rw [htmod, hz]; rfl)]
    · rw [add_mod_cases i k _ hi, hz, if_pos (by omega)]
      rfl
  · by_cases hhalf : k % s.num_led ≤ s.num_led / 2
    · obtain ⟨l2, hrun, hl2, hp⟩ :=
        shiftForward_spec s.leds (4 * (k % s.num_led)) (by omega) (by omega) hb
      rw [hl] at hrun
      refine ⟨l2, ?_, hl2, fun i hi off h1 h3 => ?_⟩
      · rw [rotate_forward_case s k (k % s.num_led) htmod (by omega) hhalf, hrun]
        rfl
      · rw [hp _ (by omega), add_mod_cases i k _ hi]
        by_cases hlt : i + k % s.num_led < s.num_led
        · rw [if_pos hlt, if_pos (by omega)]
          congr 1
          omega
        · rw [if_neg hlt, if_neg (by omega)]
          congr 1
          omega
    · obtain ⟨l2, hrun, hl2, hp⟩ :=
        shiftBackward_spec s.leds (4 * (s.num_led - k % s.num_led)) (by omega) (by omega) hb
      rw [hl] at hrun
      refine ⟨l2, ?_, hl2, fun i hi off h1 h3 => ?_⟩
      · rw [rotate_flip_pos_case s k (k % s.num_led) htmod (by omega) hq, hrun]
        rfl
      · rw [hp _ (by omega), add_mod_cases i k _ hi]
        by_cases hlt : i + k % s.num_led < s.num_led
        · rw [if_pos hlt, if_pos (by omega)]
          congr 1
          omega
        · rw [if_neg hlt, if_neg (by omega), if_neg (by omega)]
          congr 1
          omega

/-! ## rotate with the scratch block checked -/

theorem rd_cases (m : List Nat) (i : Int) :
    rd m i = .error .outOfBounds ∨ ∃ v, rd m i = .ok v := by
  unfold rd
  split_ifs
  · exact Or.inr ⟨_, rfl⟩
  · exact Or.inl rfl

theorem store_cases (m : List Nat) (i : Int) (v : Nat) :
    store m i v = .error .outOfBounds ∨ ∃ m2, store m i v = .ok m2 := by
  unfold store
  split_ifs
  · exact Or.inr ⟨_, rfl⟩
  · exact Or.inl rfl

theorem saveBodyStrict_cases (pos off i : Int) (st : List Nat × List Nat) :
    saveBodyStrict pos off i st = .error .outOfBounds ∨
      (tempInBlock pos i = true ∧ ∃ st1, saveBodyStrict pos off i st = .ok st1) := by
  unfold saveBodyStrict
  rcases rd_cases st.1 (off + i) with h | ⟨v, h⟩
  · rw [h]; exact Or.inl rfl
  · rw [h]
    by_cases hb : tempInBlock pos i = true
    · rcases store_cases st.2 i v with h2 | ⟨t, h2⟩
      · left
        simp only [bind, Except.bind, hb, if_true, h2]
      · right
        refine ⟨hb, (st.1, t), ?_⟩
        simp only [bind, Except.bind, hb, if_true, h2]
        rfl
    · left
      simp only [bind, Except.bind, hb, if_false]
      rfl

/-- The save loop with the scratch block checked faults as soon as its range
contains an index whose cell lies outside the block. -/
theorem forLoop_saveBodyStrict_fault (pos off : Int) (q : Nat)
    (hq : tempInBlock pos (q : Int) = false) :
    ∀ (cnt a : Nat) (st : List Nat × List Nat), a ≤ q → q < a + cnt →
      forLoop (saveBodyStrict pos off) 1 cnt (a : Int) st = .error .outOfBounds := by
  intro cnt
  induction cnt with
  | zero => intro a st h1 h2; omega
  | succ c ih =>
    intro a st h1 h2
    rw [forLoop_succ]
    rcases saveBodyStrict_cases pos off (a : Int) st with h | ⟨hb, st1, h⟩
    · rw [h]; rfl
    · have hne : a ≠ q := by
        intro e
        rw [e, hq] at hb
        cases hb
      rw [h]
      have e1 : ((a : Int) + 1) = ((a + 1 : Nat) : Int) := by push_cast; rfl
      show forLoop (saveBodyStrict pos off) 1 c ((a : Int) + 1) st1 = _
      rw [e1]
      exact ih (a + 1) st1 (by omega) (by omega)

theorem tempInBlock_end (q : Nat) : tempInBlock ((q : Int) * 4) (q : Int) = false := by
  unfold tempInBlock
  simp

theorem shiftForwardStrict_fault (l : List Nat) (n : Int) (q : Nat) (hq : 1 ≤ q) :
    shiftForwardStrict l n ((q : Int) * 4) = .error .outOfBounds := by
  have h := forLoop_saveBodyStrict_fault ((q : Int) * 4) 0 q (tempInBlock_end q)
    (((q : Int) * 4).toNat) 0 (l, List.replicate ((q : Int) * 4).toNat 0) (by omega) (by omega)
  unfold shiftForwardStrict
  simp only [Nat.cast_zero] at h
  simp only [bind, Except.bind, h]

theorem shiftBackwardStrict_fault (l : List Nat) (n : Int) (q : Nat) (hq : 1 ≤ q) :
    shiftBackwardStrict l n ((q : Int) * 4) = .error .outOfBounds := by
  have h := forLoop_saveBodyStrict_fault ((q : Int) * 4) (n - (q : Int) * 4) q
    (tempInBlock_end q) (((q : Int) * 4).toNat) 0 (l, List.replicate ((q : Int) * 4).toNat 0)
    (by omega) (by omega)
  unfold shiftBackwardStrict
  simp only [Nat.cast_zero] at h
  simp only [bind, Except.bind, h]

theorem rotate_strict_uses_plan (s : apa102Object) (k : Int) (hn : s.num_led ≠ 0)
    (hsp : Int.tmod k s.num_led ≠ 0) :
    apa102_rotate_strict s k =
      if (rotatePlan s.num_led k).2 > 0 then
        (shiftForwardStrict s.leds s.num_led_array
          ((rotatePlan s.num_led k).1 * ((BYTES_PER_LED : Nat) : Int)) >>=
            fun l => pure { s with leds := l })
      else
        (shiftBackwardStrict s.leds s.num_led_array
          ((rotatePlan s.num_led k).1 * ((BYTES_PER_LED : Nat) : Int)) >>=
            fun l => pure { s with leds := l }) := by
  unfold apa102_rotate_strict rotatePlan
  rw [if_neg hn]
  simp only [hsp, if_false]

theorem rotatePlan_pixels (n : Nat) (hn : n ≠ 0) (k : Int) (hsp : Int.tmod k n ≠ 0) :
    ∃ q : Nat, 1 ≤ q ∧ (rotatePlan n k).1 = (q : Int) := by
  obtain ⟨q, hq, hcase⟩ := tmod_cases k n
  have hqn := hq hn
  rcases hcase with h | h
  · refine ⟨min q (n - q), ?_, ?_⟩
    · have : 1 ≤ q := by omega
      omega
    · rw [rotatePlan_pos n k q h (by omega) hqn]
  · by_cases hhalf : q ≤ n / 2
    · refine ⟨min q (n - q), ?_, ?_⟩
      · have : 1 ≤ q := by omega
        omega
      · rw [rotatePlan_neg_small n k q h (by omega) hhalf]
    · refine ⟨n + q, by omega, ?_⟩
      rw [rotatePlan_neg_large n k q h (by omega)]

/-- What `rotate` does when the block of `temp` is checked, on every strip and
for every argument: a modulo by zero on an empty strip, a normal return that
changes nothing when the reduced amount is 0, and an access outside an allocated
block for every other argument, because the save loop stores `pos` integers into
a block of `pos` bytes. -/
theorem rotate_strict_outcome (s : apa102Object) (k : Int) :
    (s.num_led = 0 → apa102_rotate_strict s k = .error .divByZero) ∧
    (s.num_led ≠ 0 → Int.tmod k s.num_led = 0 → apa102_rotate_strict s k = .ok s) ∧
    (s.num_led ≠ 0 → Int.tmod k s.num_led ≠ 0 →
      apa102_rotate_strict s k = .error .outOfBounds) := by
  refine ⟨fun h0 => ?_, fun hn hz => ?_, fun hn hsp => ?_⟩
  · unfold apa102_rotate_strict
    rw [if_pos h0]
  · unfold apa102_rotate_strict
    rw [if_neg hn]
    simp only [hz, if_true]
    rfl
  · obtain ⟨q, hq, hplan⟩ := rotatePlan_pixels s.num_led hn k hsp
    rw [rotate_strict_uses_plan s k hn hsp, hplan]
    have e : (q : Int) * ((BYTES_PER_LED : Nat) : Int) = (q : Int) * 4 := rfl
    rw [e, shiftForwardStrict_fault _ _ q hq, shiftBackwardStrict_fault _ _ q hq]
    split_ifs <;> rfl

theorem sampleStrip_reachable :
    (apa102_set_pixel (apa102_init 2 true (some 20) (some ['G', 'R', 'B'])) 0 1 2 3 31 >>=
      fun s => apa102_set_pixel s 1 0xAB 0x0C 0xF9 7) = .ok sampleStrip := by
  decide

theorem sampleStrip4_reachable :
    (apa102_set_pixel (apa102_init 4 true none none) 0 1 2 3 31 >>= fun s =>
      apa102_set_pixel s 1 11 12 13 31 >>= fun s =>
      apa102_set_pixel s 2 21 22 23 31 >>= fun s =>
      apa102_set_pixel s 3 31 32 33 31) = .ok sampleStrip4 := by
  decide

/-! ## Claims -/

/-- C1: on every well-formed strip, for every index `i` below the pixel count,
all `r`, `g`, `b` in 0..255 and every brightness argument, `set_pixel(i, r, g, b,
brightness)` completes and the tuple query `get_pixel_color(i)` on the resulting
strip returns exactly `(r, g, b)`, whatever the channel order. -/
theorem set_pixel_then_get_pixel_color (s : apa102Object) (hs : WF s) (i : Nat)
    (hi : i < s.num_led) (r g b : Nat) (hr : r < 256) (hg : g < 256) (hb : b < 256)
    (brightness : Nat) :
    ∃ s2, apa102_set_pixel s (i : Int) r g b brightness = .ok s2 ∧
      apa102_get_pixel_color s2 (i : Int) = .ok (some (r, g, b)) := by
  obtain ⟨m2, hset, _, hp⟩ := set_pixel_spec s hs i hi r g b brightness
  have hc : ChannelsOK s := hs.2.2.1
  obtain ⟨⟨hR1, hR3⟩, ⟨hG1, hG3⟩, ⟨hB1, hB3⟩, _⟩ := id hc
  refine ⟨_, hset, ?_⟩
  refine get_pixel_color_of_bytes { s with leds := m2 } i (Nat.le_of_lt hi) r g b ?_ ?_ ?_
  · show m2[4 * i + s.rgb_RED]? = some r
    rw [hp, if_pos (by omega), pixelByte_red s hc, Nat.mod_eq_of_lt hr]
  · show m2[4 * i + s.rgb_GRN]? = some g
    rw [hp, if_pos (by omega), pixelByte_grn s hc, Nat.mod_eq_of_lt hg]
  · show m2[4 * i + s.rgb_BLU]? = some b
    rw [hp, if_pos (by omega), pixelByte_blu s hc, Nat.mod_eq_of_lt hb]

theorem set_pixel_then_get_pixel_color_witness :
    ∃ s2, apa102_set_pixel (apa102_init 2 true (some 7) (some ['G', 'R', 'B'])) ((1 : Nat) : Int)
        10 20 30 40 = .ok s2 ∧
      apa102_get_pixel_color s2 ((1 : Nat) : Int) = .ok (some (10, 20, 30)) :=
  set_pixel_then_get_pixel_color (apa102_init 2 true (some 7) (some ['G', 'R', 'B']))
    (by decide) 1 (by decide) 10 20 30 (by decide) (by decide) (by decide) 40

/-- C10: for every strip and every index that is negative or at least the pixel
count, `set_pixel` and `set_pixel_rgb` return normally and leave the whole object,
the pixel buffer included, unchanged. -/
theorem set_pixel_out_of_range_noop (s : apa102Object) (index : Int)
    (h : index < 0 ∨ index ≥ (s.num_led : Int)) (r g b brightness : Nat) (rgb : Int) :
    apa102_set_pixel s index r g b brightness = .ok s ∧
      apa102_set_pixel_rgb s index rgb brightness = .ok s := by
  have hg : ¬ (index < (s.num_led : Int) ∧ index ≥ 0) := by omega
  refine ⟨?_, ?_⟩
  · unfold apa102_set_pixel
    rw [if_neg hg]; rfl
  · rw [set_pixel_rgb_eq]
    unfold apa102_set_pixel
    rw [if_neg hg]; rfl

theorem set_pixel_out_of_range_noop_witness :
    apa102_set_pixel (apa102_init 2 true none none) 2 10 20 30 31
        = .ok (apa102_init 2 true none none) ∧
      apa102_set_pixel_rgb (apa102_init 2 true none none) 2 0x123456 31
        = .ok (apa102_init 2 true none none) :=
  set_pixel_out_of_range_noop (apa102_init 2 true none none) 2 (by decide) 10 20 30 31 0x123456

/-- C7: on every well-formed strip (global brightness `g` at most 31) and for
every brightness argument `br`, each set operation (`set_pixel`, `set_range`,
`set_all` and their packed variants) completes and leaves in the marker byte of
every pixel it writes the value `0xE0 | (floor(min(br, 31) * g / 31) & 0x1F)`;
the five-bit brightness field of that byte is `floor(min(br, 31) * g / 31)`,
which is `min(br, 31)` when `g = 31` and never exceeds `g`. -/
theorem marker_byte_of_set_operations (s : apa102Object) (hs : WF s) (br r g b : Nat)
    (rgb : Int) :
    (∀ i : Nat, i < s.num_led →
      (∃ s2, apa102_set_pixel s (i : Int) r g b br = .ok s2 ∧
        s2.leds[4 * i]? = some (markerOfSpec br s.brightness)) ∧
      (∃ s2, apa102_set_pixel_rgb s (i : Int) rgb br = .ok s2 ∧
        s2.leds[4 * i]? = some (markerOfSpec br s.brightness))) ∧
    (∀ start stop : Nat, start ≤ stop → stop < s.num_led →
      (∃ s2, apa102_set_range s (start : Int) (stop : Int) r g b br = .ok s2 ∧
        ∀ i, start ≤ i → i < stop →
          s2.leds[4 * i]? = some (markerOfSpec br s.brightness)) ∧
      (∃ s2, apa102_set_range_rgb s (start : Int) (stop : Int) rgb br = .ok s2 ∧
        ∀ i, start ≤ i → i < stop →
          s2.leds[4 * i]? = some (markerOfSpec br s.brightness))) ∧
    (∃ s2, apa102_set_all s r g b br = .ok s2 ∧
      ∀ i, i < s.num_led → s2.leds[4 * i]? = some (markerOfSpec br s.brightness)) ∧
    (∃ s2, apa102_set_all_rgb s rgb br = .ok s2 ∧
      ∀ i, i < s.num_led → s2.leds[4 * i]? = some (markerOfSpec br s.brightness)) ∧
    markerOfSpec br s.brightness &&& 0x1F = min br 31 * s.brightness / 31 ∧
    markerOfSpec br 31 &&& 0x1F = min br 31 ∧
    markerOfSpec br s.brightness &&& 0x1F ≤ s.brightness := by
  have hg : s.brightness ≤ 31 := hs.2.2.2.1
  refine ⟨fun i hi => ⟨set_pixel_marker s hs br r g b i hi, ?_⟩,
    fun start stop h1 h2 => ⟨set_range_marker s hs br r g b start stop h1 h2, ?_⟩,
    set_all_marker s hs br r g b, ?_, markerOfSpec_field br _ hg, ?_, ?_⟩
  · rw [set_pixel_rgb_eq]
    exact set_pixel_marker s hs br _ _ _ i hi
  · rw [set_range_rgb_eq]
    exact set_range_marker s hs br _ _ _ start stop h1 h2
  · rw [set_all_rgb_eq]
    exact set_all_marker s hs br _ _ _
  · rw [markerOfSpec_field br 31 (le_refl _)]
    omega
  · rw [markerOfSpec_field br _ hg]
    exact scaled_le br _

theorem marker_byte_of_set_operations_witness :
    WF (apa102_init 3 true (some 7) none) ∧
      (∃ s2, apa102_set_pixel (apa102_init 3 true (some 7) none) ((1 : Nat) : Int) 1 2 3 40
          = .ok s2 ∧
        s2.leds[4 * 1]? = some (markerOfSpec 40 (apa102_init 3 true (some 7) none).brightness)) ∧
      markerOfSpec 40 (apa102_init 3 true (some 7) none).brightness &&& 0x1F ≤ 7 :=
  ⟨by decide,
    ((marker_byte_of_set_operations (apa102_init 3 true (some 7) none) (by decide) 40 1 2 3
      0x010203).1 1 (by decide)).1,
    (marker_byte_of_set_operations (apa102_init 3 true (some 7) none) (by decide) 40 1 2 3
      0x010203).2.2.2.2.2.2⟩

/-- C9: on every well-formed strip, whatever its buffer holds, `clear_strip()`
completes; afterwards the bytes at offsets 1, 2 and 3 of every pixel group are 0,
every pixel reads back as `(0, 0, 0)` through `get_pixel_color`, and the marker
byte at offset 0 of every pixel group is what it was before the call. -/
theorem clear_strip_zeroes_colours_keeps_markers (s : apa102Object) (hs : WF s) :
    ∃ s2, apa102_clear_strip s = .ok s2 ∧ s2.leds.length = s.leds.length ∧
      ∀ i : Nat, i < s.num_led →
        s2.leds[4 * i + 1]? = some 0 ∧ s2.leds[4 * i + 2]? = some 0 ∧
        s2.leds[4 * i + 3]? = some 0 ∧
        apa102_get_pixel_color s2 (i : Int) = .ok (some (0, 0, 0)) ∧
        s2.leds[4 * i]? = s.leds[4 * i]? := by
  obtain ⟨m2, hclr, hl2, hp⟩ := clear_strip_spec s hs
  obtain ⟨hn, hl, hc, _, _⟩ := hs
  obtain ⟨⟨hR1, hR3⟩, ⟨hG1, hG3⟩, ⟨hB1, hB3⟩, _⟩ := id hc
  have hz : ∀ i : Nat, i < s.num_led → ∀ off : Nat, 1 ≤ off → off ≤ 3 →
      m2[4 * i + off]? = some 0 := by
    intro i hi off h1 h3
    rw [hp, if_pos (by omega)]
  refine ⟨_, hclr, hl2, fun i hi => ⟨hz i hi 1 (by omega) (by omega),
    hz i hi 2 (by omega) (by omega), hz i hi 3 (by omega) (by omega), ?_, ?_⟩⟩
  · exact get_pixel_color_of_bytes { s with leds := m2 } i (Nat.le_of_lt hi) 0 0 0
      (hz i hi _ hR1 hR3) (hz i hi _ hG1 hG3) (hz i hi _ hB1 hB3)
  · show m2[4 * i]? = _
    rw [hp, if_neg (by omega)]

theorem clear_strip_zeroes_colours_keeps_markers_witness :
    WF sampleStrip ∧
    sampleStrip.leds = [0xF4, 3, 1, 2, 0xE4, 0xF9, 0xAB, 0x0C] ∧
    apa102_clear_strip sampleStrip
      = .ok { sampleStrip with leds := [0xF4, 0, 0, 0, 0xE4, 0, 0, 0] } ∧
    ∃ s2, apa102_clear_strip sampleStrip = .ok s2 ∧
      s2.leds.length = sampleStrip.leds.length ∧
      ∀ i : Nat, i < sampleStrip.num_led →
        s2.leds[4 * i + 1]? = some 0 ∧ s2.leds[4 * i + 2]? = some 0 ∧
        s2.leds[4 * i + 3]? = some 0 ∧
        apa102_get_pixel_color s2 (i : Int) = .ok (some (0, 0, 0)) ∧
        s2.leds[4 * i]? = sampleStrip.leds[4 * i]? :=
  ⟨by decide, rfl, by decide,
    clear_strip_zeroes_colours_keeps_markers sampleStrip (by decide)⟩

/-- C2: on every well-formed strip with a send capability, `show` completes and
the list it hands to the callback is exactly 4 zero bytes, then the `4 * n` bytes
of the pixel buffer in order, then `ceil(n / 16)` zero bytes, every slot filled;
its length is `4 + 4 * n + ceil(n / 16)`. -/
theorem show_frame_layout (s : apa102Object) (hs : WF s) (hsend : s.spi_write = true) :
    apa102_show s = .ok (some ((List.replicate 4 0 ++ s.leds ++
        List.replicate (Nat.ceil ((s.num_led : ℚ) / 16)) 0).map some)) ∧
      (List.replicate 4 0 ++ s.leds ++
        List.replicate (Nat.ceil ((s.num_led : ℚ) / 16)) 0).length
        = 4 + 4 * s.num_led + Nat.ceil ((s.num_led : ℚ) / 16) := by
  obtain ⟨hn, hl, _⟩ := hs
  rw [ceil_div_sixteen]
  refine ⟨?_, by simp; omega⟩
  obtain ⟨l1, h1, hl1, hp1⟩ := forLoop_zeroFill 4 0
    (List.replicate (s.num_led_array + 4 + (s.num_led + 15) / 16) none)
  obtain ⟨l2, h2, hl2, hp2⟩ := forLoop_copyLeds s.leds s.num_led_array 0 l1 (by omega)
  obtain ⟨l3, h3, hl3, hp3⟩ := forLoop_zeroFill ((s.num_led + 15) / 16) (s.num_led_array + 4) l2
  unfold apa102_show
  rw [if_neg (by simp [hsend])]
  simp only [Nat.cast_zero, Nat.cast_add, Nat.cast_ofNat] at h1 h2 h3
  simp only [bind, Except.bind, pure, Except.pure] at h1 h2 h3 ⊢
  simp only [h1, h2, h3]
  congr 2
  apply List.ext_getElem?
  intro k
  rw [hp3, hp2, hp1, hl2, hl1, List.length_replicate, List.getElem?_replicate, List.getElem?_map,
    List.getElem?_append, List.getElem?_append, List.getElem?_replicate,
    List.getElem?_replicate]
  simp only [List.length_append, List.length_replicate]
  split_ifs <;> first | rfl | (exfalso; omega) | skip
  rw [List.getElem?_eq_getElem (by omega)]
  rfl

theorem show_frame_layout_witness :
    apa102_show (apa102_init 17 true none none) = .ok (some ((List.replicate 4 0 ++
        (apa102_init 17 true none none).leds ++
        List.replicate (Nat.ceil (((apa102_init 17 true none none).num_led : ℚ) / 16)) 0).map
          some)) ∧
      (List.replicate 4 0 ++ (apa102_init 17 true none none).leds ++
        List.replicate (Nat.ceil (((apa102_init 17 true none none).num_led : ℚ) / 16)) 0).length
        = 4 + 4 * (apa102_init 17 true none none).num_led +
          Nat.ceil (((apa102_init 17 true none none).num_led : ℚ) / 16) :=
  show_frame_layout (apa102_init 17 true none none) (by decide) (by decide)

/-- C3: a strip built with 3 pixels, global brightness 31 and the default channel
order, after `set_all(255, 0, 0, 31)`, makes `show` send the 17-byte frame
`[0,0,0,0, FF,0,0,FF, FF,0,0,FF, FF,0,0,FF, 0]`: bytes 4, 8, 12 are `0xFF`, red is
the fourth byte of each pixel group (bytes 7, 11, 15), blue and green are 0 and one
zero byte ends the frame. -/
theorem show_three_red_pixels :
    (apa102_set_all (apa102_init 3 true (some 31) none) 255 0 0 31 >>= apa102_show)
        = .ok (some (redFrame.map some)) ∧
      redFrame.length = 17 ∧ redFrame.length = 4 + 12 + Nat.ceil ((3 : ℚ) / 16) ∧
      redFrame[4]? = some 0xFF ∧ redFrame[8]? = some 0xFF ∧ redFrame[12]? = some 0xFF ∧
      redFrame[7]? = some 255 ∧ redFrame[11]? = some 255 ∧ redFrame[15]? = some 255 ∧
      redFrame[5]? = some 0 ∧ redFrame[6]? = some 0 ∧ redFrame[16]? = some 0 := by
  have hc : Nat.ceil ((3 : ℚ) / 16) = 1 := by
    have := ceil_div_sixteen 3
    simpa using this
  rw [hc]
  decide

/-- C4 (fails on the code): on a two-pixel strip whose pixel 0 was set with
brightness 31, `rotate(1)` followed by `rotate(-1)` both complete, yet the buffer
ends as `[FF,3,2,1, FF,0,0,0]` instead of the original `[FF,3,2,1, E0,0,0,0]`: the
backward copy loop `for (i = num_led_array-1; i > pos; i--)` never writes
`leds[pos]`, so that marker byte keeps its stale value. -/
theorem rotate_then_rotate_back_differs :
    (apa102_set_pixel (apa102_init 2 true none none) 0 1 2 3 31 >>= fun s1 =>
      apa102_rotate s1 1 >>= fun s2 =>
      apa102_rotate s2 (-1) >>= fun s3 =>
      pure (s1.leds, s2.leds, s3.leds))
      = .ok ([0xFF, 3, 2, 1, 0xE0, 0, 0, 0], [0xE0, 0, 0, 0, 0xFF, 3, 2, 1],
          [0xFF, 3, 2, 1, 0xFF, 0, 0, 0]) := by
  decide

/-- C5 (fails on the code): on the two-pixel buffer `[FF,3,2,1, E0,0,0,0]`,
`rotate(-1)` completes with `[E0,0,0,0, E0,3,2,1]`; the group `[E0,3,2,1]` at index 1
is none of the groups present before the call, so no circular shift of whole
pixel groups produces the result. -/
theorem rotate_backward_is_no_group_shift :
    (apa102_set_pixel (apa102_init 2 true none none) 0 1 2 3 31 >>= fun s1 =>
      apa102_rotate s1 (-1) >>= fun s2 => pure (s1.leds, s2.leds))
      = .ok ([0xFF, 3, 2, 1, 0xE0, 0, 0, 0], [0xE0, 0, 0, 0, 0xE0, 3, 2, 1]) ∧
    ¬ ∃ shift : Nat, ∀ i, i < 2 →
      pixelAt [0xE0, 0, 0, 0, 0xE0, 3, 2, 1] i
        = pixelAt [0xFF, 3, 2, 1, 0xE0, 0, 0, 0] ((i + shift) % 2) := by
  refine ⟨by decide, ?_⟩
  rintro ⟨shift, h⟩
  have h1 := h 1 (by decide)
  rcases Nat.mod_two_eq_zero_or_one (1 + shift) with h0 | h0 <;> rw [h0] at h1 <;>
    exact absurd h1 (by decide)

/-- C6 (fails on the code): right after construction of a three-pixel strip,
`rotate(-2)` does not complete with a buffer at all: the reduced amount is -2, the
flip computes `pos = num_led - signed_pos = 5` pixels, and the first copy loop
reads `leds[12]`, past the 12-byte buffer. -/
theorem rotate_negative_reads_past_buffer :
    apa102_rotate (apa102_init 3 true none none) (-2) = .error .outOfBounds := by
  decide

/-- C8 (fails on the code for pixel count 0): on a strip constructed with
`num_led = 0`, `rotate` with any argument executes `signed_pos %= 0`. -/
theorem rotate_empty_strip_divides_by_zero (spi_write : Bool) (global_brightness : Option Nat)
    (order : Option (List Char)) (positions : Int) :
    apa102_rotate (apa102_init 0 spi_write global_brightness order) positions
      = .error .divByZero := rfl

/-- C20: on every strip with a positive pixel count `n`, whatever the buffer
holds, `rotate(n)` returns normally and leaves the object, the pixel buffer
included, unchanged. -/
theorem rotate_full_cycle_noop (s : apa102Object) (hn : 0 < s.num_led) :
    apa102_rotate s (s.num_led : Int) = .ok s :=
  rotate_zero_case s _ (by omega) Int.tmod_self

theorem rotate_full_cycle_noop_witness :
    apa102_rotate (apa102_init 3 true none none)
        (((apa102_init 3 true none none).num_led : Nat) : Int)
      = .ok (apa102_init 3 true none none) :=
  rotate_full_cycle_noop (apa102_init 3 true none none) (by decide)

set_option maxRecDepth 100000 in
theorem wheel_steps : ∀ p, p < 255 →
    (channelOf (apa102_wheel p) 16 ≤ channelOf (apa102_wheel (p + 1)) 16 + 3 ∧
      channelOf (apa102_wheel (p + 1)) 16 ≤ channelOf (apa102_wheel p) 16 + 3) ∧
    (channelOf (apa102_wheel p) 8 ≤ channelOf (apa102_wheel (p + 1)) 8 + 3 ∧
      channelOf (apa102_wheel (p + 1)) 8 ≤ channelOf (apa102_wheel p) 8 + 3) ∧
    (channelOf (apa102_wheel p) 0 ≤ channelOf (apa102_wheel (p + 1)) 0 + 3 ∧
      channelOf (apa102_wheel (p + 1)) 0 ≤ channelOf (apa102_wheel p) 0 + 3) := by
  decide

/-- C19: for every position `p` in 0..254, each of the red, green and blue
channels of `wheel(p)` and `wheel(p + 1)`, extracted as the packed set operations
do, differs by at most 3; this covers the band boundaries 84/85 and 169/170. -/
theorem wheel_step_bounded (p : Nat) (hp : p ≤ 254) :
    (channelOf (apa102_wheel p) 16 ≤ channelOf (apa102_wheel (p + 1)) 16 + 3 ∧
      channelOf (apa102_wheel (p + 1)) 16 ≤ channelOf (apa102_wheel p) 16 + 3) ∧
    (channelOf (apa102_wheel p) 8 ≤ channelOf (apa102_wheel (p + 1)) 8 + 3 ∧
      channelOf (apa102_wheel (p + 1)) 8 ≤ channelOf (apa102_wheel p) 8 + 3) ∧
    (channelOf (apa102_wheel p) 0 ≤ channelOf (apa102_wheel (p + 1)) 0 + 3 ∧
      channelOf (apa102_wheel (p + 1)) 0 ≤ channelOf (apa102_wheel p) 0 + 3) :=
  wheel_steps p (by omega)

theorem wheel_step_bounded_witness :
    (channelOf (apa102_wheel 84) 16 ≤ channelOf (apa102_wheel (84 + 1)) 16 + 3 ∧
      channelOf (apa102_wheel (84 + 1)) 16 ≤ channelOf (apa102_wheel 84) 16 + 3) ∧
    (channelOf (apa102_wheel 84) 8 ≤ channelOf (apa102_wheel (84 + 1)) 8 + 3 ∧
      channelOf (apa102_wheel (84 + 1)) 8 ≤ channelOf (apa102_wheel 84) 8 + 3) ∧
    (channelOf (apa102_wheel 84) 0 ≤ channelOf (apa102_wheel (84 + 1)) 0 + 3 ∧
      channelOf (apa102_wheel (84 + 1)) 0 ≤ channelOf (apa102_wheel 84) 0 + 3) :=
  wheel_step_bounded 84 (by decide)

/-- C18: for all `r`, `g`, `b` in 0..255, `combine_color(r, g, b)` is
`(r << 16) | (g << 8) | b`, which is `r * 65536 + g * 256 + b` and lies below
`2^24`; decoding it with `((v >> 16) & 255, (v >> 8) & 255, v & 255)`, as the
packed set operations do, returns exactly `(r, g, b)`. -/
theorem combine_color_roundtrip (r g b : Nat) (hr : r < 256) (hg : g < 256) (hb : b < 256) :
    apa102_combine_color r g b = (r <<< 16) ||| (g <<< 8) ||| b ∧
    apa102_combine_color r g b = r * 65536 + g * 256 + b ∧
    apa102_combine_color r g b < 2 ^ 24 ∧
    (channelOf (apa102_combine_color r g b) 16, channelOf (apa102_combine_color r g b) 8,
      channelOf (apa102_combine_color r g b) 0) = (r, g, b) ∧
    (decodeSpec (apa102_combine_color r g b) 16, decodeSpec (apa102_combine_color r g b) 8,
      decodeSpec (apa102_combine_color r g b) 0) = ((r : Int), (g : Int), (b : Int)) := by
  have hsum := combine_color_sum r g b hg hb
  have h16 : channelOf (apa102_combine_color r g b) 16 = r := by
    rw [channelOf_nat, hsum]; norm_num; omega
  have h8 : channelOf (apa102_combine_color r g b) 8 = g := by
    rw [channelOf_nat, hsum]; norm_num; omega
  have h0 : channelOf (apa102_combine_color r g b) 0 = b := by
    rw [channelOf_nat, hsum]; norm_num; omega
  have hd : ∀ shift, decodeSpec (apa102_combine_color r g b) shift
      = ((channelOf (apa102_combine_color r g b) shift : Nat) : Int) := by
    intro shift
    rw [channelOf_eq_decodeSpec, Int.toNat_of_nonneg (decodeSpec_range _ _).1]
  refine ⟨rfl, hsum, by rw [hsum]; norm_num; omega, by rw [h16, h8, h0], ?_⟩
  rw [hd, hd, hd, h16, h8, h0]

theorem combine_color_roundtrip_witness :
    apa102_combine_color 0xAB 0x0C 0xF9 = (0xAB <<< 16) ||| (0x0C <<< 8) ||| 0xF9 ∧
    apa102_combine_color 0xAB 0x0C 0xF9 = 0xAB * 65536 + 0x0C * 256 + 0xF9 ∧
    apa102_combine_color 0xAB 0x0C 0xF9 < 2 ^ 24 ∧
    (channelOf (apa102_combine_color 0xAB 0x0C 0xF9) 16,
      channelOf (apa102_combine_color 0xAB 0x0C 0xF9) 8,
      channelOf (apa102_combine_color 0xAB 0x0C 0xF9) 0) = (0xAB, 0x0C, 0xF9) ∧
    (decodeSpec (apa102_combine_color 0xAB 0x0C 0xF9) 16,
      decodeSpec (apa102_combine_color 0xAB 0x0C 0xF9) 8,
      decodeSpec (apa102_combine_color 0xAB 0x0C 0xF9) 0)
        = (((0xAB : Nat) : Int), ((0x0C : Nat) : Int), ((0xF9 : Nat) : Int)) :=
  combine_color_roundtrip 0xAB 0x0C 0xF9 (by decide) (by decide) (by decide)

/-- C14: for every strip, every integer `rgb` (bits above bit 23 included) and
every brightness, each packed operation is the three-channel operation called
with `r = (rgb >> 16) & 255`, `g = (rgb >> 8) & 255`, `b = rgb & 255`: the two
calls give the same result, hence the same buffer; each decoded channel lies in
0..255. -/
theorem packed_rgb_matches_three_channel (s : apa102Object) (i start stop rgb : Int)
    (br : Nat) :
    apa102_set_pixel_rgb s i rgb br = apa102_set_pixel s i (decodeSpec rgb 16).toNat
      (decodeSpec rgb 8).toNat (decodeSpec rgb 0).toNat br ∧
    apa102_set_range_rgb s start stop rgb br = apa102_set_range s start stop
      (decodeSpec rgb 16).toNat (decodeSpec rgb 8).toNat (decodeSpec rgb 0).toNat br ∧
    apa102_set_all_rgb s rgb br = apa102_set_all s (decodeSpec rgb 16).toNat
      (decodeSpec rgb 8).toNat (decodeSpec rgb 0).toNat br ∧
    (0 ≤ decodeSpec rgb 16 ∧ decodeSpec rgb 16 ≤ 255) ∧
    (0 ≤ decodeSpec rgb 8 ∧ decodeSpec rgb 8 ≤ 255) ∧
    (0 ≤ decodeSpec rgb 0 ∧ decodeSpec rgb 0 ≤ 255) := by
  refine ⟨?_, ?_, ?_, decodeSpec_range _ _, decodeSpec_range _ _, decodeSpec_range _ _⟩
  · rw [set_pixel_rgb_eq, channelOf_eq_decodeSpec, channelOf_eq_decodeSpec,
      channelOf_eq_decodeSpec]
  · rw [set_range_rgb_eq, channelOf_eq_decodeSpec, channelOf_eq_decodeSpec,
      channelOf_eq_decodeSpec]
  · rw [set_all_rgb_eq, channelOf_eq_decodeSpec, channelOf_eq_decodeSpec,
      channelOf_eq_decodeSpec]

/-- C11: on every well-formed strip and for all integers `start`, `end`:
`set_range` and `set_range_rgb` return the object unchanged whenever one of
`start >= 0`, `end < pixel_count`, `start <= end` fails; in particular every call
with `end == pixel_count` is a no-op; and whatever the arguments, both calls
return normally with the four bytes of the last pixel as they were. -/
theorem set_range_guard_and_last_pixel (s : apa102Object) (hs : WF s) (start stop : Int)
    (r g b br : Nat) (rgb : Int) :
    (¬ (start ≥ 0 ∧ stop < (s.num_led : Int) ∧ start ≤ stop) →
      apa102_set_range s start stop r g b br = .ok s ∧
      apa102_set_range_rgb s start stop rgb br = .ok s) ∧
    (apa102_set_range s start (s.num_led : Int) r g b br = .ok s ∧
      apa102_set_range_rgb s start (s.num_led : Int) rgb br = .ok s) ∧
    (∃ s2, apa102_set_range s start stop r g b br = .ok s2 ∧
      s2.leds.length = s.leds.length ∧
      ∀ off, off < 4 →
        s2.leds[4 * (s.num_led - 1) + off]? = s.leds[4 * (s.num_led - 1) + off]?) ∧
    (∃ s2, apa102_set_range_rgb s start stop rgb br = .ok s2 ∧
      s2.leds.length = s.leds.length ∧
      ∀ off, off < 4 →
        s2.leds[4 * (s.num_led - 1) + off]? = s.leds[4 * (s.num_led - 1) + off]?) := by
  refine ⟨fun h => ?_, ⟨?_, ?_⟩, set_range_last_pixel s hs start stop r g b br, ?_⟩
  · have hg : start < 0 ∨ stop ≥ (s.num_led : Int) ∨ start > stop := by omega
    exact ⟨set_range_noop_of_guard s start stop hg r g b br,
      by rw [set_range_rgb_eq]; exact set_range_noop_of_guard s start stop hg _ _ _ br⟩
  · exact set_range_noop_of_guard s start _ (by omega) r g b br
  · rw [set_range_rgb_eq]
    exact set_range_noop_of_guard s start _ (by omega) _ _ _ br
  · rw [set_range_rgb_eq]
    exact set_range_last_pixel s hs start stop _ _ _ br

theorem set_range_guard_and_last_pixel_witness :
    apa102_set_range (apa102_init 3 true none none) 0
        (((apa102_init 3 true none none).num_led : Nat) : Int) 1 2 3 31
      = .ok (apa102_init 3 true none none) ∧
    apa102_set_range_rgb (apa102_init 3 true none none) 0
        (((apa102_init 3 true none none).num_led : Nat) : Int) 0x010203 31
      = .ok (apa102_init 3 true none none) :=
  (set_range_guard_and_last_pixel (apa102_init 3 true none none) (by decide) 0 2 1 2 3 31
    0x010203).2.1

/-- C12: on every well-formed strip, for every range `0 <= start <= end <
pixel_count` and all `r`, `g`, `b` in 0..255, `set_range(start, end, r, g, b,
brightness)` returns normally and afterwards every pixel `i` with `start <= i <
end` reads back as `(r, g, b)` through `get_pixel_color(i)` and has the marker
byte `0xE0 | floor(min(brightness, 31) * global_brightness / 31)`. -/
theorem set_range_writes_every_pixel (s : apa102Object) (hs : WF s) (start stop : Nat)
    (h1 : start ≤ stop) (h2 : stop < s.num_led) (r g b : Nat) (hr : r < 256) (hg : g < 256)
    (hb : b < 256) (brightness : Nat) :
    ∃ s2, apa102_set_range s (start : Int) (stop : Int) r g b brightness = .ok s2 ∧
      ∀ i, start ≤ i → i < stop →
        apa102_get_pixel_color s2 (i : Int) = .ok (some (r, g, b)) ∧
        s2.leds[4 * i]? = some (0xE0 ||| (min brightness 31 * s.brightness / 31)) := by
  obtain ⟨m2, hset, _, hp⟩ := set_range_spec s hs start stop h1 h2 r g b brightness
  refine ⟨_, hset, fun i hi1 hi2 => ?_⟩
  have := read_back_of_pointwise s hs m2 (brightByte s (clampBrightness brightness)) r g b hr hg
    hb i (by omega) (fun k hk1 hk2 => by rw [hp, if_pos (by omega)])
  refine ⟨this.1, ?_⟩
  show m2[4 * i]? = _
  rw [this.2, brightByte_eq_markerOfSpec s hs.2.2.2.1, markerOfSpec_unmasked _ _ hs.2.2.2.1]

theorem set_range_writes_every_pixel_witness :
    ∃ s2, apa102_set_range (apa102_init 4 true (some 20) none) ((1 : Nat) : Int)
        ((3 : Nat) : Int) 10 20 30 25 = .ok s2 ∧
      ∀ i : Nat, 1 ≤ i → i < 3 →
        apa102_get_pixel_color s2 (i : Int) = .ok (some (10, 20, 30)) ∧
        s2.leds[4 * i]? = some (0xE0 |||
          (min 25 31 * (apa102_init 4 true (some 20) none).brightness / 31)) :=
  set_range_writes_every_pixel (apa102_init 4 true (some 20) none) (by decide) 1 3 (by decide)
    (by decide) 10 20 30 (by decide) (by decide) (by decide) 25

/-- C13: on every well-formed strip with `n >= 0` pixels and for all `r`, `g`,
`b` in 0..255, `set_all(r, g, b, brightness)` returns normally and afterwards
every pixel `i` in `[0, n)`, the last one included, reads back as `(r, g, b)`
and has the marker byte `0xE0 | floor(min(brightness, 31) * global_brightness /
31)`; on an empty strip the call returns the object unchanged. -/
theorem set_all_writes_every_pixel (s : apa102Object) (hs : WF s) (r g b : Nat)
    (hr : r < 256) (hg : g < 256) (hb : b < 256) (brightness : Nat) :
    ∃ s2, apa102_set_all s r g b brightness = .ok s2 ∧
      (∀ i, i < s.num_led →
        apa102_get_pixel_color s2 (i : Int) = .ok (some (r, g, b)) ∧
        s2.leds[4 * i]? = some (0xE0 ||| (min brightness 31 * s.brightness / 31))) ∧
      (s.num_led = 0 → s2 = s) := by
  obtain ⟨m2, hset, hl, hp⟩ := set_all_spec s hs r g b brightness
  refine ⟨_, hset, fun i hi => ?_, fun h0 => ?_⟩
  · have := read_back_of_pointwise s hs m2 (brightByte s (clampBrightness brightness)) r g b hr
      hg hb i hi (fun k hk1 hk2 => by rw [hp, if_pos (by omega)])
    refine ⟨this.1, ?_⟩
    show m2[4 * i]? = _
    rw [this.2, brightByte_eq_markerOfSpec s hs.2.2.2.1, markerOfSpec_unmasked _ _ hs.2.2.2.1]
  · have hm : m2 = s.leds := by
      apply List.ext_getElem?
      intro k
      rw [hp, if_neg (by omega)]
    rw [hm]

theorem set_all_writes_every_pixel_witness :
    ∃ s2, apa102_set_all (apa102_init 3 true (some 20) none) 10 20 30 25 = .ok s2 ∧
      (∀ i, i < (apa102_init 3 true (some 20) none).num_led →
        apa102_get_pixel_color s2 (i : Int) = .ok (some (10, 20, 30)) ∧
        s2.leds[4 * i]? = some (0xE0 |||
          (min 25 31 * (apa102_init 3 true (some 20) none).brightness / 31))) ∧
      ((apa102_init 3 true (some 20) none).num_led = 0 →
        s2 = apa102_init 3 true (some 20) none) :=
  set_all_writes_every_pixel (apa102_init 3 true (some 20) none) (by decide) 10 20 30
    (by decide) (by decide) (by decide) 25

/-- C17 as stated fails: the order string `BGRR` contains the letter R twice, so
it does not contain each of R, G, B exactly once among its characters, yet the
constructor accepts it: the mapping is offset(RED)=1, offset(GREEN)=2,
offset(BLUE)=3, not the default 3, 2, 1. -/
theorem order_with_repeated_letter_is_accepted :
    ¬ eachOnce ['B', 'G', 'R', 'R'] ∧
    (apa102_init 1 true none (some ['B', 'G', 'R', 'R'])).rgb_RED = 1 ∧
    (apa102_init 1 true none (some ['B', 'G', 'R', 'R'])).rgb_GRN = 2 ∧
    (apa102_init 1 true none (some ['B', 'G', 'R', 'R'])).rgb_BLU = 3 ∧
    (apa102_init 1 true none (some ['B', 'G', 'R', 'R'])).rgb_RED ≠ 3 := by
  decide

/-- C17 amended: the constructor looks at the first three characters of the
order string only.  For every C string `o`: if its first three characters do not
contain each of R, G, B exactly once (case-insensitively), and when no string is
given, the mapping is the default offset(RED)=3, offset(GREEN)=2, offset(BLUE)=1;
so a mapping other than the default is accepted only if the first three
characters contain each letter exactly once; and when they do, the string is
accepted: each channel gets the offset `3 - j` of the position `j` of its letter,
a permutation of 1, 2, 3. -/
theorem order_accepted_by_first_three (num_led : Nat) (spi_write : Bool)
    (global_brightness : Option Nat) (o : List Char) (hnul : NULL_CHAR ∉ o) :
    ((apa102_init num_led spi_write global_brightness none).rgb_RED = 3 ∧
      (apa102_init num_led spi_write global_brightness none).rgb_GRN = 2 ∧
      (apa102_init num_led spi_write global_brightness none).rgb_BLU = 1) ∧
    (¬ eachOnce (o.take 3) →
      (apa102_init num_led spi_write global_brightness (some o)).rgb_RED = 3 ∧
      (apa102_init num_led spi_write global_brightness (some o)).rgb_GRN = 2 ∧
      (apa102_init num_led spi_write global_brightness (some o)).rgb_BLU = 1) ∧
    (eachOnce (o.take 3) →
      ChannelsOK (apa102_init num_led spi_write global_brightness (some o)) ∧
      (o.getD (3 - (apa102_init num_led spi_write global_brightness (some o)).rgb_RED)
            NULL_CHAR = 'r' ∨
        o.getD (3 - (apa102_init num_led spi_write global_brightness (some o)).rgb_RED)
            NULL_CHAR = 'R') ∧
      (o.getD (3 - (apa102_init num_led spi_write global_brightness (some o)).rgb_GRN)
            NULL_CHAR = 'g' ∨
        o.getD (3 - (apa102_init num_led spi_write global_brightness (some o)).rgb_GRN)
            NULL_CHAR = 'G') ∧
      (o.getD (3 - (apa102_init num_led spi_write global_brightness (some o)).rgb_BLU)
            NULL_CHAR = 'b' ∨
        o.getD (3 - (apa102_init num_led spi_write global_brightness (some o)).rgb_BLU)
            NULL_CHAR = 'B')) := by
  refine ⟨init_rgb_none num_led spi_write global_brightness, fun h => ?_, fun h => ?_⟩
  · exact init_rgb_default num_led spi_write global_brightness o
      (fun hacc => h ((scan_accept_iff o hnul).mp hacc))
  · have hacc := (scan_accept_iff o hnul).mpr h
    obtain ⟨e1, e2, e3⟩ := init_rgb_accept num_led spi_write global_brightness o hacc
    obtain ⟨hr, hg, hb⟩ := scanOrder_letters o 3 0 ⟨0, 0, 0, 0, 0, 0⟩ (by omega)
      ⟨fun h0 => by simp at h0, fun h0 => by simp at h0, fun h0 => by simp at h0⟩
    refine ⟨(init_WF num_led spi_write global_brightness (some o)).2.2.1, ?_, ?_, ?_⟩
    · rw [e1]; exact (hr (by omega)).2
    · rw [e2]; exact (hg (by omega)).2
    · rw [e3]; exact (hb (by omega)).2

theorem order_accepted_by_first_three_witness :
    NULL_CHAR ∉ ['g', 'R', 'b', 'x'] ∧
    (eachOnce (['g', 'R', 'b', 'x'].take 3) →
      ChannelsOK (apa102_init 2 true none (some ['g', 'R', 'b', 'x'])) ∧
      (['g', 'R', 'b', 'x'].getD
            (3 - (apa102_init 2 true none (some ['g', 'R', 'b', 'x'])).rgb_RED) NULL_CHAR = 'r' ∨
        ['g', 'R', 'b', 'x'].getD
            (3 - (apa102_init 2 true none (some ['g', 'R', 'b', 'x'])).rgb_RED) NULL_CHAR = 'R') ∧
      (['g', 'R', 'b', 'x'].getD
            (3 - (apa102_init 2 true none (some ['g', 'R', 'b', 'x'])).rgb_GRN) NULL_CHAR = 'g' ∨
        ['g', 'R', 'b', 'x'].getD
            (3 - (apa102_init 2 true none (some ['g', 'R', 'b', 'x'])).rgb_GRN) NULL_CHAR = 'G') ∧
      (['g', 'R', 'b', 'x'].getD
            (3 - (apa102_init 2 true none (some ['g', 'R', 'b', 'x'])).rgb_BLU) NULL_CHAR = 'b' ∨
        ['g', 'R', 'b', 'x'].getD
            (3 - (apa102_init 2 true none (some ['g', 'R', 'b', 'x'])).rgb_BLU) NULL_CHAR = 'B')) :=
  ⟨by decide,
    (order_accepted_by_first_three 2 true none ['g', 'R', 'b', 'x'] (by decide)).2.2⟩

/-- C15 (fails on the code for the index equal to the pixel count): on every
constructed strip, `get_pixel_color_str`, `get_pixel_color_rgb` and
`get_pixel_color` called with `led_num == num_led` pass the guard
`led_num < 0 || led_num > num_led` and read past the end of the pixel buffer
instead of returning `None`. -/
theorem getters_read_past_buffer_at_pixel_count (num_led : Nat) (spi_write : Bool)
    (global_brightness : Option Nat) (order : Option (List Char)) :
    apa102_get_pixel_color_str (apa102_init num_led spi_write global_brightness order)
        (num_led : Int) = .error .outOfBounds ∧
      apa102_get_pixel_color_rgb (apa102_init num_led spi_write global_brightness order)
        (num_led : Int) = .error .outOfBounds ∧
      apa102_get_pixel_color (apa102_init num_led spi_write global_brightness order)
        (num_led : Int) = .error .outOfBounds :=
  getters_fault_at_pixel_count (apa102_init num_led spi_write global_brightness order)
    (init_WF num_led spi_write global_brightness order)

/-- C16: on every well-formed strip and for every valid index `i`, with `(r, g,
b)` the channel values `get_pixel_color(i)` returns, `get_pixel_color_str(i)` is
the 7-character string `#` followed by `r`, `g`, `b` in that order, each as two
uppercase hexadecimal digits with the high nibble first; it is also `#` followed
by the six-digit zero-padded uppercase hexadecimal rendering of the number
`get_pixel_color_rgb(i)` returns. -/
theorem get_pixel_color_str_is_upper_hex (s : apa102Object) (hs : WF s) (i : Nat)
    (hi : i < s.num_led) :
    ∃ r g b, r < 256 ∧ g < 256 ∧ b < 256 ∧
      apa102_get_pixel_color s (i : Int) = .ok (some (r, g, b)) ∧
      apa102_get_pixel_color_rgb s (i : Int) = .ok (some ((r <<< 16) ||| (g <<< 8) ||| b)) ∧
      apa102_get_pixel_color_str s (i : Int)
        = .ok (some ('#' :: (hexByteUpper r ++ hexByteUpper g ++ hexByteUpper b))) ∧
      ('#' :: (hexByteUpper r ++ hexByteUpper g ++ hexByteUpper b)).length = 7 ∧
      '#' :: (hexByteUpper r ++ hexByteUpper g ++ hexByteUpper b)
        = '#' :: hexUpper6 ((r <<< 16) ||| (g <<< 8) ||| b) := by
  obtain ⟨hn, hl, hc, _, hbytes⟩ := id hs
  obtain ⟨⟨hR1, hR3⟩, ⟨hG1, hG3⟩, ⟨hB1, hB3⟩, _⟩ := id hc
  have hr := getElem?_of_lt s.leds (4 * i + s.rgb_RED) (by omega)
  have hg := getElem?_of_lt s.leds (4 * i + s.rgb_GRN) (by omega)
  have hb := getElem?_of_lt s.leds (4 * i + s.rgb_BLU) (by omega)
  have hr2 := getD_lt_of_bytes s.leds hbytes (4 * i + s.rgb_RED)
  have hg2 := getD_lt_of_bytes s.leds hbytes (4 * i + s.rgb_GRN)
  have hb2 := getD_lt_of_bytes s.leds hbytes (4 * i + s.rgb_BLU)
  refine ⟨_, _, _, hr2, hg2, hb2,
    get_pixel_color_of_bytes s i (Nat.le_of_lt hi) _ _ _ hr hg hb,
    get_pixel_color_rgb_of_bytes s i (Nat.le_of_lt hi) _ _ _ hr hg hb,
    get_pixel_color_str_spec s i hi _ _ _ hr hg hb hr2 hg2 hb2, rfl, ?_⟩
  have hsum := combine_color_sum (s.leds.getD (4 * i + s.rgb_RED) 0) _ _ hg2 hb2
  unfold apa102_combine_color at hsum
  rw [hsum, hexUpper6_of_channels _ _ _ hr2 hg2 hb2]

theorem get_pixel_color_str_is_upper_hex_witness :
    apa102_get_pixel_color sampleStrip ((1 : Nat) : Int) = .ok (some (0xAB, 0x0C, 0xF9)) ∧
    apa102_get_pixel_color_rgb sampleStrip ((1 : Nat) : Int) = .ok (some 0xAB0CF9) ∧
    apa102_get_pixel_color_str sampleStrip ((1 : Nat) : Int)
      = .ok (some ['#', 'A', 'B', '0', 'C', 'F', '9']) ∧
    ∃ r g b, r < 256 ∧ g < 256 ∧ b < 256 ∧
      apa102_get_pixel_color sampleStrip ((1 : Nat) : Int) = .ok (some (r, g, b)) ∧
      apa102_get_pixel_color_rgb sampleStrip ((1 : Nat) : Int)
        = .ok (some ((r <<< 16) ||| (g <<< 8) ||| b)) ∧
      apa102_get_pixel_color_str sampleStrip ((1 : Nat) : Int)
        = .ok (some ('#' :: (hexByteUpper r ++ hexByteUpper g ++ hexByteUpper b))) ∧
      ('#' :: (hexByteUpper r ++ hexByteUpper g ++ hexByteUpper b)).length = 7 ∧
      '#' :: (hexByteUpper r ++ hexByteUpper g ++ hexByteUpper b)
        = '#' :: hexUpper6 ((r <<< 16) ||| (g <<< 8) ||| b) :=
  ⟨by decide, by decide, by decide,
    get_pixel_color_str_is_upper_hex sampleStrip (by decide) 1 (by decide)⟩

/-- C22: for every order string given to the constructor, valid or not, of any
length, and when none is given, the channel table sends RED, GREEN and BLUE to
three pairwise distinct offsets, each 1, 2 or 3; hence for every pixel `i` the
three colour bytes `4 * i + offset` lie inside pixel `i`'s group, none of them is
a marker byte (an index divisible by 4), and no two channels share a byte. -/
theorem channel_map_is_permutation (num_led : Nat) (spi_write : Bool)
    (global_brightness : Option Nat) (order : Option (List Char)) :
    ChannelsOK (apa102_init num_led spi_write global_brightness order) ∧
    ∀ i : Nat,
      ((4 * i + (apa102_init num_led spi_write global_brightness order).rgb_RED) / 4 = i ∧
        (4 * i + (apa102_init num_led spi_write global_brightness order).rgb_RED) % 4 ≠ 0) ∧
      ((4 * i + (apa102_init num_led spi_write global_brightness order).rgb_GRN) / 4 = i ∧
        (4 * i + (apa102_init num_led spi_write global_brightness order).rgb_GRN) % 4 ≠ 0) ∧
      ((4 * i + (apa102_init num_led spi_write global_brightness order).rgb_BLU) / 4 = i ∧
        (4 * i + (apa102_init num_led spi_write global_brightness order).rgb_BLU) % 4 ≠ 0) ∧
      4 * i + (apa102_init num_led spi_write global_brightness order).rgb_RED
        ≠ 4 * i + (apa102_init num_led spi_write global_brightness order).rgb_GRN ∧
      4 * i + (apa102_init num_led spi_write global_brightness order).rgb_GRN
        ≠ 4 * i + (apa102_init num_led spi_write global_brightness order).rgb_BLU ∧
      4 * i + (apa102_init num_led spi_write global_brightness order).rgb_RED
        ≠ 4 * i + (apa102_init num_led spi_write global_brightness order).rgb_BLU := by
  have hc := (init_WF num_led spi_write global_brightness order).2.2.1
  refine ⟨hc, fun i => ?_⟩
  obtain ⟨⟨hR1, hR3⟩, ⟨hG1, hG3⟩, ⟨hB1, hB3⟩, hRG, hGB, hRB⟩ := hc
  refine ⟨⟨by omega, by omega⟩, ⟨by omega, by omega⟩, ⟨by omega, by omega⟩, by omega, by omega,
    by omega⟩

/-- C23: on every well-formed strip, `set_pixel` on a valid index `i` returns
normally, keeps the buffer length and leaves every byte outside the four bytes of
pixel `i` unchanged; `set_range` on a valid range `0 <= start <= end < pixel_count`
returns normally, keeps the buffer length and leaves every byte of every pixel
with index below `start` or at least `end` unchanged; nothing but the buffer of the
object changes. -/
theorem set_operations_frame (s : apa102Object) (hs : WF s) (r g b br : Nat) :
    (∀ i : Nat, i < s.num_led →
      ∃ m2, apa102_set_pixel s (i : Int) r g b br = .ok { s with leds := m2 } ∧
        m2.length = s.leds.length ∧
        ∀ k, (k < 4 * i ∨ 4 * i + 4 ≤ k) → m2[k]? = s.leds[k]?) ∧
    (∀ start stop : Nat, start ≤ stop → stop < s.num_led →
      ∃ m2, apa102_set_range s (start : Int) (stop : Int) r g b br = .ok { s with leds := m2 } ∧
        m2.length = s.leds.length ∧
        ∀ k, (k < 4 * start ∨ 4 * stop ≤ k) → m2[k]? = s.leds[k]?) := by
  refine ⟨fun i hi => ?_, fun start stop h1 h2 => ?_⟩
  · obtain ⟨m2, hset, hl, hp⟩ := set_pixel_spec s hs i hi r g b br
    refine ⟨m2, hset, hl, fun k hk => ?_⟩
    rw [hp, if_neg (by omega)]
  · obtain ⟨m2, hset, hl, hp⟩ := set_range_spec s hs start stop h1 h2 r g b br
    refine ⟨m2, hset, hl, fun k hk => ?_⟩
    rw [hp, if_neg (by omega)]

theorem set_operations_frame_witness :
    ∃ m2, apa102_set_pixel (apa102_init 3 true none none) ((1 : Nat) : Int) 10 20 30 31
        = .ok { apa102_init 3 true none none with leds := m2 } ∧
      m2.length = (apa102_init 3 true none none).leds.length ∧
      ∀ k, (k < 4 * 1 ∨ 4 * 1 + 4 ≤ k) → m2[k]? = (apa102_init 3 true none none).leds[k]? :=
  (set_operations_frame (apa102_init 3 true none none) (by decide) 10 20 30 31).1 1 (by decide)

/-- C21 (fails on the code for negative arguments): on a three-pixel strip,
`rotate(-2)` has reduced amount -2 of magnitude `m = 2`; the code flips the
direction and sets the pixel count to `num_led - signed_pos = 5`, not to
`min(m, n - m) = 1`: more than `n / 2` and more than `n`.  The call then runs
the forward branch with 20 bytes on a 12-byte buffer and reads past its end. -/
theorem rotate_negative_plans_more_than_strip :
    Int.tmod (-2) ((3 : Nat) : Int) = -2 ∧
    rotatePlan 3 (-2) = (5, 1) ∧
    (rotatePlan 3 (-2)).1 ≠ ((min 2 (3 - 2) : Nat) : Int) ∧
    (3 : Int) < (rotatePlan 3 (-2)).1 ∧
    apa102_rotate (apa102_init 3 true none none) (-2)
      = (shiftForward (apa102_init 3 true none none).leds 12 20 >>=
          fun l => pure { apa102_init 3 true none none with leds := l }) ∧
    shiftForward (apa102_init 3 true none none).leds 12 20 = .error .outOfBounds := by
  decide

/-- With `temp` taken as `pos` cells (the embedding `apa102_rotate`, which leaves
the block of `temp` unchecked): on every well-formed strip with `n > 0` pixels
and for every non-negative `k`, `rotate(k)` returns and afterwards, at each index
`i` in `[0, n)`, `get_pixel_color(i)` returns the colour that `get_pixel_color`
gave at index `(i + k) mod n` before the call, in the direct branch and in the
flipped branch alike. -/
theorem rotate_moves_colours_toward_lower_indices (s : apa102Object) (hs : WF s)
    (hn : 0 < s.num_led) (k : Nat) :
    ∃ s2, apa102_rotate s (k : Int) = .ok s2 ∧
      ∀ i, i < s.num_led →
        ∃ c, apa102_get_pixel_color s (((i + k) % s.num_led : Nat) : Int) = .ok (some c) ∧
          apa102_get_pixel_color s2 (i : Int) = .ok (some c) := by
  obtain ⟨l2, hrun, hl2, hp⟩ := rotate_colour_bytes s hs hn k
  obtain ⟨hN, hl, hc, _, _⟩ := id hs
  obtain ⟨⟨hR1, hR3⟩, ⟨hG1, hG3⟩, ⟨hB1, hB3⟩, _⟩ := id hc
  refine ⟨_, hrun, fun i hi => ?_⟩
  have hj : (i + k) % s.num_led < s.num_led := Nat.mod_lt _ hn
  have hr := getElem?_of_lt s.leds (4 * ((i + k) % s.num_led) + s.rgb_RED) (by omega)
  have hg := getElem?_of_lt s.leds (4 * ((i + k) % s.num_led) + s.rgb_GRN) (by omega)
  have hb := getElem?_of_lt s.leds (4 * ((i + k) % s.num_led) + s.rgb_BLU) (by omega)
  refine ⟨_, get_pixel_color_of_bytes s _ (Nat.le_of_lt hj) _ _ _ hr hg hb,
    get_pixel_color_of_bytes { s with leds := l2 } i (Nat.le_of_lt hi) _ _ _ ?_ ?_ ?_⟩
  · show l2[4 * i + s.rgb_RED]? = _
    rw [hp i hi _ hR1 hR3, hr]
  · show l2[4 * i + s.rgb_GRN]? = _
    rw [hp i hi _ hG1 hG3, hg]
  · show l2[4 * i + s.rgb_BLU]? = _
    rw [hp i hi _ hB1 hB3, hb]

theorem rotate_moves_colours_toward_lower_indices_witness :
    ∃ s2, apa102_rotate sampleStrip4 ((3 : Nat) : Int) = .ok s2 ∧
      ∀ i, i < sampleStrip4.num_led →
        ∃ c, apa102_get_pixel_color sampleStrip4
            (((i + 3) % sampleStrip4.num_led : Nat) : Int) = .ok (some c) ∧
          apa102_get_pixel_color s2 (i : Int) = .ok (some c) :=
  rotate_moves_colours_toward_lower_indices sampleStrip4 (by decide) (by decide) 3

/-- C24 (fails on the code): on the four-pixel strip `sampleStrip4`, `rotate(2)`
takes the direct branch with 2 pixels, `pos = 8` bytes; `temp` is a block of 8
bytes used as an `int` array, so its third store, `temp[2]`, already starts at
the end of the block and the save loop writes 32 bytes in all: the call is an
access outside an allocated block, not a rotation of the colours. -/
theorem rotate_overflows_scratch_block :
    rotatePlan sampleStrip4.num_led 2 = (2, 1) ∧
    tempInBlock 8 1 = true ∧ tempInBlock 8 2 = false ∧
    apa102_rotate_strict sampleStrip4 2
      = (shiftForwardStrict sampleStrip4.leds 16 8 >>=
          fun l => pure { sampleStrip4 with leds := l }) ∧
    apa102_rotate_strict sampleStrip4 2 = .error .outOfBounds := by
  decide

end APA102
